import Mathlib

/-!
# PDFium JNI bridge (`src/main/cpp/native-lib.cpp`): a shallow embedding

The embedding follows the C++ source function by function.

* Pixel memory is a list of bytes. A `uint32_t` access goes through `loadU32` /
  `storeU32`, little-endian as on every Android ABI; an access outside the
  buffer, or through a misaligned `uint32_t*`, is undefined behaviour and is
  reported as `none`.
* `int` arithmetic is done in `Int`; where the source multiplies two `int`s the
  result has to fit 32 bits, otherwise the behaviour is undefined (`none`).
* Calls into the PDF engine and into the Android bitmap API are outside the
  repository. Their outcomes are inputs of the model (`RenderEnv`, `LoadOutcome`,
  the annotation records) and every call made is appended to a trace of `Call`s.
* Constants that come from the engine's and the platform's headers are the
  fields of `Consts`; every definition that uses one takes it as a parameter.
-/

namespace PdfBridge

/-! ## Machine integers and pixel memory -/

/-- One byte of pixel memory. -/
abbrev Byte := Fin 256

/-- Largest value of a 32-bit `int`. -/
def INT_MAX : Int := 2147483647

/-- Smallest value of a 32-bit `int`. -/
def INT_MIN : Int := -2147483648

/-- Product of two `int`s. Signed overflow is undefined behaviour: `none`. -/
def mulInt (a b : Int) : Option Int :=
  if INT_MIN ≤ a * b ∧ a * b ≤ INT_MAX then some (a * b) else none

/-- Conversion of a `uint32_t` to `int` (two's complement). -/
def toInt32 (n : Nat) : Int :=
  if n % 4294967296 < 2147483648 then ((n % 4294967296 : Nat) : Int)
  else ((n % 4294967296 : Nat) : Int) - 4294967296

/-- Byte `k` of a 32-bit value, least significant first. -/
def byteOf (v : Nat) (k : Nat) : Byte :=
  ⟨v / 2 ^ (8 * k) % 256, Nat.mod_lt _ (by decide)⟩

/-- Read of `*(uint32_t*)((uint8_t*)pixels + off)`. -/
def loadU32 (mem : List Byte) (off : Int) : Option Nat :=
  if 0 ≤ off ∧ off % 4 = 0 ∧ off.toNat + 4 ≤ mem.length then
    some ((mem.getD off.toNat 0).val
          + 2 ^ 8 * (mem.getD (off.toNat + 1) 0).val
          + 2 ^ 16 * (mem.getD (off.toNat + 2) 0).val
          + 2 ^ 24 * (mem.getD (off.toNat + 3) 0).val)
  else none

/-- Write of `*(uint32_t*)((uint8_t*)pixels + off) = v`. -/
def storeU32 (mem : List Byte) (off : Int) (v : Nat) : Option (List Byte) :=
  if 0 ≤ off ∧ off % 4 = 0 ∧ off.toNat + 4 ≤ mem.length then
    some ((((mem.set off.toNat (byteOf v 0)).set (off.toNat + 1) (byteOf v 1)).set
            (off.toNat + 2) (byteOf v 2)).set (off.toNat + 3) (byteOf v 3))
  else none

/-! ## `swapRedBlueChannels` (lines 49-61) -/

/-- Body of the inner loop on one pixel value: lines 54-58. The `uint8_t`
channels are promoted to `int`, shifted, or-ed, and the result is stored to a
`uint32_t`, which keeps its low 32 bits. -/
def swapColor (color : Nat) : Nat :=
  let a := (color >>> 24) &&& 0xFF
  let r := (color >>> 16) &&& 0xFF
  let g := (color >>> 8) &&& 0xFF
  let b := color &&& 0xFF
  ((a <<< 24) ||| (b <<< 16) ||| (g <<< 8) ||| r) % 2 ^ 32

/-- One iteration of the inner loop: `row[x] = swap(row[x])`, where `row` is the
byte offset of the row within the buffer. -/
def swapPixel (row : Int) (mem : List Byte) (x : Nat) : Option (List Byte) := do
  let color ← loadU32 mem (row + 4 * (x : Int))
  storeU32 mem (row + 4 * (x : Int)) (swapColor color)

/-- One iteration of the outer loop: the row pointer is `pixels + y * stride`,
the product taken in `int`; then `for (int x = 0; x < width; ++x)`. -/
def swapRow (width stride : Int) (mem : List Byte) (y : Nat) : Option (List Byte) := do
  let row ← mulInt (y : Int) stride
  (List.range width.toNat).foldlM (swapPixel row) mem

/-- The function `swapRedBlueChannels(pixels, width, height, stride)`:
`for (int y = 0; y < height; ++y)` over the rows. -/
def swapRedBlueChannels (pixels : List Byte) (width height stride : Int) :
    Option (List Byte) :=
  (List.range height.toNat).foldlM (swapRow width stride) pixels

/-- Exchange of the bytes at offsets `a` and `a + 2`: what one inner-loop
iteration does to little-endian memory (used to state the loop invariants). -/
def swapBytesAt (mem : List Byte) (a : Nat) : List Byte :=
  (mem.set a (mem.getD (a + 2) 0)).set (a + 2) (mem.getD a 0)

/-- Offset, within a row, of the byte that ends up at offset `k` of that row
once the row has been processed. -/
def swz (k : Nat) : Nat :=
  if k % 4 = 0 then k + 2 else if k % 4 = 2 then k - 2 else k

/-! ## Constants of the headers, Java exceptions, the trace of calls -/

/-- Constants the source takes from `fpdfview.h`, `fpdf_annot.h` and
`android/bitmap.h`; their values are parameters of the model. -/
structure Consts where
  /-- Error code with which the engine reports a password problem (`FPDF_ERR_PASSWORD`). -/
  FPDF_ERR_PASSWORD : Nat
  /-- Subtype of link annotations (`FPDF_ANNOT_LINK`). -/
  FPDF_ANNOT_LINK : Int
  /-- Success code of the bitmap API (`ANDROID_BITMAP_RESULT_SUCCESS`). -/
  ANDROID_BITMAP_RESULT_SUCCESS : Int
  /-- Pixel format passed to `FPDFBitmap_CreateEx` (`FPDFBitmap_BGRx`). -/
  FPDFBitmap_BGRx : Int
  /-- Render flag `FPDF_ANNOT`. -/
  FPDF_ANNOT : Nat
  /-- Render flag `FPDF_NO_CATCH`. -/
  FPDF_NO_CATCH : Nat

/-- The values the public headers of the engine and of the platform give to
the constants; used where a definition is evaluated on a concrete input. -/
def headerConsts : Consts where
  FPDF_ERR_PASSWORD := 4
  FPDF_ANNOT_LINK := 2
  ANDROID_BITMAP_RESULT_SUCCESS := 0
  FPDFBitmap_BGRx := 3
  FPDF_ANNOT := 1
  FPDF_NO_CATCH := 256

/-- The Java classes the source passes to `ThrowNew`. -/
inductive JavaClass
  /-- The class `java/lang/IllegalArgumentException`. -/
  | IllegalArgumentException
  /-- The class `java/lang/IllegalStateException`. -/
  | IllegalStateException
  /-- The class `java/lang/IndexOutOfBoundsException`. -/
  | IndexOutOfBoundsException
  /-- The class `java/io/IOException`. -/
  | IOException
  /-- The class `java/lang/OutOfMemoryError`. -/
  | OutOfMemoryError
  /-- The class `com/mattermost/pdfium/exceptions/PasswordRequiredException`. -/
  | PasswordRequiredException
  /-- The class `com/mattermost/pdfium/exceptions/InvalidPasswordException`. -/
  | InvalidPasswordException
  /-- The class `com/mattermost/pdfium/exceptions/DocumentOpenException`. -/
  | DocumentOpenException
  deriving DecidableEq, Repr

/-- A pending Java exception: the class and message given to `ThrowNew`. -/
structure Thrown where
  cls : JavaClass
  message : String
  deriving DecidableEq, Repr

/-- A call into the PDF engine or the Android bitmap API, with its arguments
and, where the source looks at it, its result (`none` is a null pointer). -/
inductive Call
  | FPDF_InitLibrary
  | FPDF_DestroyLibrary
  | FPDF_LoadDocument (path : String) (password : Option String) (result : Option Nat)
  | FPDF_GetLastError (result : Nat)
  | FPDF_CloseDocument (document : Nat)
  | FPDF_GetPageCount (document : Nat) (result : Int)
  | FPDF_LoadPage (document : Nat) (pageIndex : Int) (result : Option Nat)
  | FPDF_ClosePage (page : Nat)
  | FPDF_GetPageSizeByIndex (document : Nat) (pageIndex : Int)
  | AndroidBitmap_getInfo (result : Int)
  | AndroidBitmap_lockPixels (result : Int) (pixelsNonNull : Bool)
  | AndroidBitmap_unlockPixels
  | FPDFBitmap_CreateEx (width height format stride : Int) (result : Option Nat)
  | FPDFBitmap_FillRect (bitmap : Nat) (left top width height : Int) (color : Nat)
  | FPDF_RenderPageBitmap (bitmap page : Nat) (start_x start_y size_x size_y rotate : Int)
      (flags : Nat)
  | FPDFBitmap_Destroy (bitmap : Nat)
  deriving DecidableEq, Repr

/-! ## `DocumentWrapper` and the process-wide engine guard (lines 15-47) -/

/-- The class `DocumentWrapper`: its only member is `document`, `none` for `nullptr`. -/
structure DocumentWrapper where
  document : Option Nat
  deriving DecidableEq, Repr

/-- State of the process as far as the bridge is concerned: the global
`pdfium_initialized`, the `DocumentWrapper` objects alive on the heap by
address, the number of wrappers allocated so far (the next one gets the next
address, addresses start at 1), and the engine calls made so far. The mutex
`pdfium_mutex` has no effect in a sequential history and is not modelled. -/
structure Process where
  pdfium_initialized : Bool
  heap : List (Nat × DocumentWrapper)
  allocated : Nat
  trace : List Call
  deriving DecidableEq, Repr

/-- State of a freshly started process. -/
def Process.start : Process := ⟨false, [], 0, []⟩

/-- The method `DocumentWrapper::cleanup()`, lines 28-39. -/
def DocumentWrapper.cleanup (w : DocumentWrapper) (p : Process) : DocumentWrapper × Process :=
  let r : DocumentWrapper × Process :=
    match w.document with
    | some d => (⟨none⟩, { p with trace := p.trace ++ [Call.FPDF_CloseDocument d] })
    | none => (w, p)
  if r.2.pdfium_initialized then
    (r.1, { r.2 with pdfium_initialized := false,
                     trace := r.2.trace ++ [Call.FPDF_DestroyLibrary] })
  else r

/-- What `nativeCloseDocument` does to the wrapper: the explicit `cleanup()` of
line 133, then the destructor run by `delete` (line 134), which calls
`cleanup()` again. The wrapper returned is the one the destructor leaves. -/
def closeWrapper (w : DocumentWrapper) (p : Process) : DocumentWrapper × Process :=
  let r := w.cleanup p
  r.1.cleanup r.2

/-- The helper `jstringToStdString`, lines 65-71: a null `jstring` gives the empty string. -/
def jstringToStdString (str : Option String) : String :=
  match str with
  | none => ""
  | some chars => chars

/-- Line 78: `jPassword ? jstringToStdString(env, jPassword) : ""`. -/
def passwordString (jPassword : Option String) : String :=
  match jPassword with
  | some _ => jstringToStdString jPassword
  | none => ""

/-- Line 91: the password handed to the engine,
`password.empty() ? nullptr : password.c_str()`. -/
def passwordArg (password : String) : Option String :=
  if password = "" then none else some password

/-- Outcome of `FPDF_LoadDocument`: a document, or null with the code that
`FPDF_GetLastError` then returns. -/
inductive LoadOutcome
  | loaded (document : Nat)
  | failed (err : Nat)
  deriving DecidableEq, Repr

/-- What a JNI entry point returning a handle leaves behind. -/
structure OpenResult where
  handle : Nat
  thrown : Option Thrown
  process : Process
  deriving DecidableEq, Repr

/-- The entry point `nativeOpenDocument`, lines 75-123. `native` is the outcome
of the engine's open and `allocOk` tells whether `new (std::nothrow)` succeeds.
The engine's C functions do not throw, so the `catch` clauses are not reached. -/
def nativeOpenDocument (K : Consts) (p : Process) (jPath jPassword : Option String)
    (native : LoadOutcome) (allocOk : Bool) : OpenResult :=
  let path := jstringToStdString jPath
  let password := passwordString jPassword
  if path = "" then
    ⟨0, some ⟨.IllegalArgumentException, "File path cannot be empty"⟩, p⟩
  else
    let p1 : Process :=
      if !p.pdfium_initialized then
        { p with pdfium_initialized := true, trace := p.trace ++ [Call.FPDF_InitLibrary] }
      else p
    match native with
    | .failed err =>
      let p2 : Process :=
        { p1 with trace := p1.trace ++
            [Call.FPDF_LoadDocument path (passwordArg password) none, Call.FPDF_GetLastError err] }
      let message := "PDFium error code: " ++ toString err
      if err = K.FPDF_ERR_PASSWORD then
        if password = "" then ⟨0, some ⟨.PasswordRequiredException, message⟩, p2⟩
        else ⟨0, some ⟨.InvalidPasswordException, message⟩, p2⟩
      else ⟨0, some ⟨.DocumentOpenException, message⟩, p2⟩
    | .loaded doc =>
      let p2 : Process :=
        { p1 with trace := p1.trace ++ [Call.FPDF_LoadDocument path (passwordArg password) (some doc)] }
      if allocOk then
        ⟨p2.allocated + 1, none,
          { p2 with heap := (p2.allocated + 1, ⟨some doc⟩) :: p2.heap,
                    allocated := p2.allocated + 1 }⟩
      else
        ⟨0, some ⟨.OutOfMemoryError, "Failed to allocate DocumentWrapper"⟩,
          { p2 with trace := p2.trace ++ [Call.FPDF_CloseDocument doc] }⟩

/-- The entry point `nativeCloseDocument`, lines 127-141. A non-zero handle that
is not the address of a live wrapper is a dangling pointer: undefined
behaviour, `none`. -/
def nativeCloseDocument (p : Process) (handle : Nat) : Option Process :=
  if handle = 0 then some p
  else
    match p.heap.lookup handle with
    | none => none
    | some wrapper =>
      let r := closeWrapper wrapper p
      some { r.2 with heap := r.2.heap.filter (fun e => e.1 != handle) }

/-- A call of the public API made by the Java side. -/
inductive Op
  | openDocument (jPath jPassword : Option String) (native : LoadOutcome) (allocOk : Bool)
  | closeDocument (handle : Nat)
  deriving DecidableEq, Repr

/-- One call of a sequential history. -/
def step (K : Consts) (p : Process) : Op → Option Process
  | .openDocument jPath jPassword native allocOk =>
    some (nativeOpenDocument K p jPath jPassword native allocOk).process
  | .closeDocument handle => nativeCloseDocument p handle

/-- A sequential history of `openDocument` and `closeDocument` calls. -/
def run (K : Consts) (p : Process) (ops : List Op) : Option Process :=
  ops.foldlM (step K) p

/-- Number of native documents open after a call, given the number before it. -/
def openStep (n : Nat) : Call → Nat
  | .FPDF_LoadDocument _ _ (some _) => n + 1
  | .FPDF_CloseDocument _ => n - 1
  | _ => n

/-- Number of native documents open after a trace that starts with `n` open. -/
def openAfter (n : Nat) (t : List Call) : Nat := t.foldl openStep n

/-- Every `FPDF_DestroyLibrary` of the trace is made with no document open. -/
def teardownOnlyWhenNoneOpen (n : Nat) : List Call → Bool
  | [] => true
  | c :: t => (c != Call.FPDF_DestroyLibrary || n == 0) && teardownOnlyWhenNoneOpen (openStep n c) t

/-- At no moment of the trace are two documents open. -/
def atMostOneOpen (n : Nat) : List Call → Bool
  | [] => decide (n ≤ 1)
  | c :: t => decide (n ≤ 1) && atMostOneOpen (openStep n c) t

/-- Number of `FPDF_CloseDocument` calls in a trace. -/
def nativeCloses (t : List Call) : Nat :=
  t.countP (fun c => match c with | .FPDF_CloseDocument _ => true | _ => false)

/-! ## `nativeRenderPageToBitmap` (lines 238-307) -/

/-- The struct `AndroidBitmapInfo`; its fields are `uint32_t`. -/
structure AndroidBitmapInfo where
  width : Nat
  height : Nat
  stride : Nat
  format : Nat
  flags : Nat
  deriving DecidableEq, Repr

/-- Outcomes of the engine and bitmap calls of one render: the page count, the
page `FPDF_LoadPage` returns, the result code and info of `AndroidBitmap_getInfo`,
the result code of `AndroidBitmap_lockPixels` and whether the address it stored
is non-null, the bitmap `FPDFBitmap_CreateEx` returns, and what the engine
writes into the pixel memory during a call (`FPDFBitmap_FillRect`,
`FPDF_RenderPageBitmap`). -/
structure RenderEnv where
  pageCount : Int
  loadPage : Option Nat
  getInfo : Int
  bitmapInfo : AndroidBitmapInfo
  lockPixels : Int
  pixelsNonNull : Bool
  createEx : Option Nat
  engineWrites : Call → List Byte → List Byte

/-- What one render leaves behind: the `jboolean` returned, the pending
exception, the calls made in order, and the pixel memory of the bitmap
(`none` when the bitmap reference is null). -/
structure RenderResult where
  ret : Bool
  thrown : Option Thrown
  trace : List Call
  pixels : Option (List Byte)
  deriving DecidableEq, Repr

/-- A `jfloat`, carried as its bit pattern; the bridge never computes with one. -/
abbrev jfloat := Nat

/-- The entry point `nativeRenderPageToBitmap`. `bitmap` is the pixel memory of
the Java bitmap, `none` for a null reference. The result is `none` when the
call has undefined behaviour (a dangling handle, or `swapRedBlueChannels`
leaving the buffer). The doubles `scaleX` and `scaleY` of lines 296-297 are
computed and never read, so they have no counterpart here. -/
def nativeRenderPageToBitmap (K : Consts) (E : RenderEnv) (heap : List (Nat × DocumentWrapper))
    (handle : Nat) (pageIndex : Int) (bitmap : Option (List Byte)) (_scale : jfloat) :
    Option RenderResult :=
  match bitmap with
  | none =>
    some ⟨false, some ⟨.IllegalArgumentException, "Invalid document handle or bitmap"⟩, [], none⟩
  | some mem =>
    if handle = 0 then
      some ⟨false, some ⟨.IllegalArgumentException, "Invalid document handle or bitmap"⟩, [],
        some mem⟩
    else
      match heap.lookup handle with
      | none => none
      | some wrapper =>
        match wrapper.document with
        | none =>
          some ⟨false, some ⟨.IllegalStateException, "Document is not valid"⟩, [], some mem⟩
        | some doc =>
          let t1 := [Call.FPDF_GetPageCount doc E.pageCount]
          if pageIndex < 0 ∨ pageIndex ≥ E.pageCount then
            some ⟨false, some ⟨.IndexOutOfBoundsException, "Invalid page index"⟩, t1, some mem⟩
          else
            match E.loadPage with
            | none =>
              some ⟨false, some ⟨.IOException, "Failed to load page"⟩,
                t1 ++ [Call.FPDF_LoadPage doc pageIndex none], some mem⟩
            | some page =>
              let t2 := t1 ++ [Call.FPDF_LoadPage doc pageIndex (some page)]
              -- `getInfo(..) != SUCCESS || lockPixels(..) != SUCCESS || !pixels`, left to right
              let t3 := t2 ++ [Call.AndroidBitmap_getInfo E.getInfo]
              let t4 := t3 ++ [Call.AndroidBitmap_lockPixels E.lockPixels E.pixelsNonNull]
              if E.getInfo ≠ K.ANDROID_BITMAP_RESULT_SUCCESS then
                some ⟨false, some ⟨.IOException, "Failed to lock bitmap pixels"⟩,
                  t3 ++ [Call.FPDF_ClosePage page], some mem⟩
              else if E.lockPixels ≠ K.ANDROID_BITMAP_RESULT_SUCCESS ∨ E.pixelsNonNull = false then
                some ⟨false, some ⟨.IOException, "Failed to lock bitmap pixels"⟩,
                  t4 ++ [Call.FPDF_ClosePage page], some mem⟩
              else
                let targetWidth := toInt32 E.bitmapInfo.width
                let targetHeight := toInt32 E.bitmapInfo.height
                let stride := toInt32 E.bitmapInfo.stride
                if targetWidth ≤ 0 ∨ targetHeight ≤ 0 then
                  some ⟨false, some ⟨.IllegalArgumentException, "Bitmap has invalid dimensions"⟩,
                    t4 ++ [Call.AndroidBitmap_unlockPixels, Call.FPDF_ClosePage page], some mem⟩
                else
                  let t5 := t4 ++ [Call.FPDFBitmap_CreateEx targetWidth targetHeight
                    K.FPDFBitmap_BGRx stride E.createEx]
                  match E.createEx with
                  | none =>
                    some ⟨false, some ⟨.IOException, "Failed to create FPDF bitmap"⟩,
                      t5 ++ [Call.AndroidBitmap_unlockPixels, Call.FPDF_ClosePage page], some mem⟩
                  | some pdfBitmap =>
                    let fill := Call.FPDFBitmap_FillRect pdfBitmap 0 0 targetWidth targetHeight
                      0xFFFFFFFF
                    let mem1 := E.engineWrites fill mem
                    let size := Call.FPDF_GetPageSizeByIndex doc pageIndex
                    let draw := Call.FPDF_RenderPageBitmap pdfBitmap page 0 0 targetWidth
                      targetHeight 0 (K.FPDF_ANNOT ||| K.FPDF_NO_CATCH)
                    let mem2 := E.engineWrites draw mem1
                    match swapRedBlueChannels mem2 targetWidth targetHeight stride with
                    | none => none
                    | some mem3 =>
                      some ⟨true, none,
                        t5 ++ [fill, size, draw, Call.FPDFBitmap_Destroy pdfBitmap,
                          Call.AndroidBitmap_unlockPixels, Call.FPDF_ClosePage page],
                        some mem3⟩

/-- Pages a trace loaded. -/
def pagesLoaded (t : List Call) : Nat :=
  t.countP (fun c => match c with | .FPDF_LoadPage _ _ (some _) => true | _ => false)

/-- Pages a trace closed. -/
def pagesClosed (t : List Call) : Nat :=
  t.countP (fun c => match c with | .FPDF_ClosePage _ => true | _ => false)

/-- Pixel locks a trace acquired: `AndroidBitmap_lockPixels` calls that returned success. -/
def locksAcquired (K : Consts) (t : List Call) : Nat :=
  t.countP (fun c => match c with
    | .AndroidBitmap_lockPixels r _ => decide (r = K.ANDROID_BITMAP_RESULT_SUCCESS)
    | _ => false)

/-- Pixel locks a trace released. -/
def locksReleased (t : List Call) : Nat :=
  t.countP (fun c => match c with | .AndroidBitmap_unlockPixels => true | _ => false)

/-- Engine bitmaps a trace created. -/
def bitmapsCreated (t : List Call) : Nat :=
  t.countP (fun c => match c with | .FPDFBitmap_CreateEx _ _ _ _ (some _) => true | _ => false)

/-- Engine bitmaps a trace destroyed. -/
def bitmapsDestroyed (t : List Call) : Nat :=
  t.countP (fun c => match c with | .FPDFBitmap_Destroy _ => true | _ => false)

/-! ## `nativeGetLinksForPage` (lines 311-390) -/

/-- The struct `FS_RECTF`; each coordinate is a float carried as its bit pattern. -/
structure FS_RECTF where
  left : Nat
  top : Nat
  right : Nat
  bottom : Nat
  deriving DecidableEq, Repr

/-- What the engine answers about an `FPDF_ACTION`: the length returned by
`FPDFAction_GetURIPath(doc, action, nullptr, 0)` and the bytes the second call
writes into the buffer. -/
structure ActionAnswer where
  uriLength : Nat
  uriBytes : List Nat
  deriving DecidableEq, Repr

/-- What the engine answers about an `FPDF_LINK`: the action returned by
`FPDFLink_GetAction` and the destination returned by `FPDFLink_GetDest`, each
`none` for null; a destination is given by what `FPDFDest_GetDestPageIndex`
returns for it. -/
structure LinkAnswer where
  action : Option ActionAnswer
  dest : Option Int
  deriving DecidableEq, Repr

/-- What the engine answers about an annotation: its subtype, its rectangle
(`none` when `FPDFAnnot_GetRect` returns false) and its link (`none` when
`FPDFAnnot_GetLink` returns null). -/
structure AnnotAnswer where
  subtype : Int
  rect : Option FS_RECTF
  link : Option LinkAnswer
  deriving DecidableEq, Repr

/-- The Java object `PdfLink(rect, uri, destinationPage)`: the four floats of its
`RectF`, as bit patterns, and the two optional arguments, `none` for null. -/
structure PdfLink where
  rect : FS_RECTF
  uri : Option (List Nat)
  destinationPage : Option Int
  deriving DecidableEq, Repr

/-- The buffer `std::vector<char> buffer(len)` after the second
`FPDFAction_GetURIPath` call: `len` zero bytes, overwritten from the start by
what the engine writes. -/
def uriBuffer (a : ActionAnswer) : List Nat :=
  (a.uriBytes ++ List.replicate a.uriLength 0).take a.uriLength

/-- The string `uri.assign(buffer.data())`: the bytes before the first NUL. The
engine ends the string inside the buffer; the model stops at the end of the
buffer in any case. -/
def assignCString (buffer : List Nat) : List Nat :=
  buffer.takeWhile (fun c => c != 0)

/-- Lines 350-369: the `uri` and `destPage` locals once the link of the
annotation has been looked at. -/
def resolveLink (link : Option LinkAnswer) : List Nat × Int :=
  match link with
  | none => ([], -1)
  | some l =>
    match l.action with
    | some action =>
      if action.uriLength > 0 then (assignCString (uriBuffer action), -1) else ([], -1)
    | none =>
      match l.dest with
      | some destPageIndex => ([], destPageIndex)
      | none => ([], -1)

/-- The bit pattern of a `float` is a signalling NaN: the exponent is all ones and the
fraction is not zero and has its top bit, the quiet bit, clear. -/
def isSignallingNaN (bits : Nat) : Bool :=
  bits / 2 ^ 23 % 256 == 255 && bits % 2 ^ 23 != 0 && bits / 2 ^ 22 % 2 == 0

/-- A `float` passed as an argument of the variadic `NewObject`: it is promoted to
`double` at the call and converted back to `jfloat` by the callee. Both conversions
are exact, except that the promotion of a signalling NaN delivers the quiet NaN of the
same sign and payload (the quiet bit, `0x00400000`, is set). -/
def floatViaDouble (bits : Nat) : Nat :=
  if isSignallingNaN bits then bits ||| 0x400000 else bits

/-- Line 373: the `RectF` made by `NewObject(rectFClass, rectFCtor, rect.left, rect.top,
rect.right, rect.bottom)`, each coordinate a variadic `float` argument. -/
def newRectF (rect : FS_RECTF) : FS_RECTF :=
  ⟨floatViaDouble rect.left, floatViaDouble rect.top, floatViaDouble rect.right,
    floatViaDouble rect.bottom⟩

/-- Some coordinate of the rectangle is a signalling NaN. -/
def hasSignallingNaN (rect : FS_RECTF) : Bool :=
  isSignallingNaN rect.left || isSignallingNaN rect.top || isSignallingNaN rect.right ||
    isSignallingNaN rect.bottom

/-- Lines 371-377: the `PdfLink` built from the rectangle and the two locals. -/
def makeLink (rect : FS_RECTF) (r : List Nat × Int) : PdfLink :=
  ⟨newRectF rect, if r.1 = [] then none else some r.1, if r.2 ≥ 0 then some r.2 else none⟩

/-- One iteration of the loop of lines 334-380 on the answer to
`FPDFPage_GetAnnot(page, i)` (`none` for null): the list `linkObjects` after it. -/
def linksLoopBody (K : Consts) (linkObjects : List PdfLink) (annot : Option AnnotAnswer) :
    List PdfLink :=
  match annot with
  | none => linkObjects
  | some a =>
    if a.subtype ≠ K.FPDF_ANNOT_LINK then linkObjects
    else
      match a.rect with
      | none => linkObjects
      | some rect => linkObjects ++ [makeLink rect (resolveLink a.link)]

/-- What `nativeGetLinksForPage` leaves behind: a pending exception and a null
result, or the array of links. -/
inductive LinksResult
  | thrown (t : Thrown)
  | links (l : List PdfLink)
  deriving DecidableEq, Repr

/-- The entry point `nativeGetLinksForPage`. `page` is what `FPDF_LoadPage`
returns, `none` for null, a loaded page being given by the answers to
`FPDFPage_GetAnnot(page, i)` for `i` below `FPDFPage_GetAnnotCount(page)`.
A dangling handle is undefined behaviour, `none`. Creating Java objects is
taken to succeed. -/
def nativeGetLinksForPage (K : Consts) (heap : List (Nat × DocumentWrapper)) (handle : Nat)
    (_pageIndex : Int) (page : Option (List (Option AnnotAnswer))) : Option LinksResult :=
  if handle = 0 then
    some (.thrown ⟨.IllegalArgumentException, "Invalid document handle"⟩)
  else
    match heap.lookup handle with
    | none => none
    | some wrapper =>
      match wrapper.document with
      | none => some (.thrown ⟨.IllegalStateException, "Document is not valid"⟩)
      | some _ =>
        match page with
        | none => some (.thrown ⟨.IOException, "Failed to load page"⟩)
        | some annots => some (.links (annots.foldl (linksLoopBody K) []))

/-- An annotation the spec calls a link annotation: its subtype is the link subtype. -/
def isLinkAnnot (K : Consts) (a : AnnotAnswer) : Bool :=
  decide (a.subtype = K.FPDF_ANNOT_LINK)

/-- A link annotation whose rectangle the engine could read. -/
def isReadableLink (K : Consts) (a : AnnotAnswer) : Bool :=
  isLinkAnnot K a && a.rect.isSome

/-- The record one iteration of the loop pushes onto `linkObjects`, if it pushes one. -/
def linkOfAnnot (K : Consts) (annot : Option AnnotAnswer) : Option PdfLink :=
  match annot with
  | none => none
  | some a =>
    if a.subtype ≠ K.FPDF_ANNOT_LINK then none
    else
      match a.rect with
      | none => none
      | some rect => some (makeLink rect (resolveLink a.link))

/-- What holds of the process after every history of the API that keeps at most
one document open: the native documents the trace leaves open are the wrappers
alive on the heap, and each of these holds a document. -/
def HistoryInv (p : Process) : Prop :=
  openAfter 0 p.trace = p.heap.length ∧ ∀ e ∈ p.heap, e.2.document ≠ none

/-! ## Concrete inputs used in the evaluations below -/

/-- A heap with one wrapper, at address 1, holding document 5. -/
def heapOneDocument : List (Nat × DocumentWrapper) := [(1, ⟨some 5⟩)]

/-- A render in which every call succeeds: a bitmap of one pixel, stride 4. -/
def envOnePixel : RenderEnv where
  pageCount := 1
  loadPage := some 7
  getInfo := 0
  bitmapInfo := ⟨1, 1, 4, 1, 0⟩
  lockPixels := 0
  pixelsNonNull := true
  createEx := some 9
  engineWrites := fun _ mem => mem

/-- The same render, except that `AndroidBitmap_lockPixels` returns success and
stores a null address. -/
def envNullPixels : RenderEnv :=
  { envOnePixel with pixelsNonNull := false }

/-- What the successful one-pixel render of `[1, 2, 3, 4]` leaves behind. -/
def renderedOnePixel : RenderResult :=
  ⟨true, none,
    [Call.FPDF_GetPageCount 5 1, Call.FPDF_LoadPage 5 0 (some 7), Call.AndroidBitmap_getInfo 0,
     Call.AndroidBitmap_lockPixels 0 true, Call.FPDFBitmap_CreateEx 1 1 3 4 (some 9),
     Call.FPDFBitmap_FillRect 9 0 0 1 1 4294967295, Call.FPDF_GetPageSizeByIndex 5 0,
     Call.FPDF_RenderPageBitmap 9 7 0 0 1 1 0 257, Call.FPDFBitmap_Destroy 9,
     Call.AndroidBitmap_unlockPixels, Call.FPDF_ClosePage 7],
    some [3, 2, 1, 4]⟩

/-- Two documents are opened, then the first is closed. -/
def twoDocumentsHistory : List Op :=
  [.openDocument (some "a.pdf") none (.loaded 10) true,
   .openDocument (some "b.pdf") none (.loaded 11) true,
   .closeDocument 1]

/-- Two documents are opened and closed one after the other. -/
def oneAtATimeHistory : List Op :=
  [.openDocument (some "a.pdf") none (.loaded 10) true,
   .closeDocument 1,
   .openDocument (some "b.pdf") (some "secret") (.loaded 11) true,
   .closeDocument 2]

/-- The process at the end of `oneAtATimeHistory`. -/
def oneAtATimeFinal : Process :=
  ⟨false, [], 2,
    [Call.FPDF_InitLibrary, Call.FPDF_LoadDocument "a.pdf" none (some 10),
     Call.FPDF_CloseDocument 10, Call.FPDF_DestroyLibrary,
     Call.FPDF_InitLibrary, Call.FPDF_LoadDocument "b.pdf" (some "secret") (some 11),
     Call.FPDF_CloseDocument 11, Call.FPDF_DestroyLibrary]⟩

/-- A process with the engine initialised and one document open, at handle 1. -/
def processOneOpen : Process :=
  ⟨true, heapOneDocument, 1,
    [Call.FPDF_InitLibrary, Call.FPDF_LoadDocument "a.pdf" none (some 5)]⟩

/-- A page with two link annotations: one whose rectangle is unreadable, and one whose
rectangle has the signalling NaN `0x7F800001` as its left coordinate. -/
def pageUnreadableAndNaN : List (Option AnnotAnswer) :=
  [some ⟨2, none, none⟩, some ⟨2, some ⟨2139095041, 0, 0, 0⟩, none⟩]

/-- A page whose only annotation is a link with a non-URI action (the URI length
query answers 0) and a destination that resolves to page 3. -/
def pageGoToAction : List (Option AnnotAnswer) :=
  [some ⟨2, some ⟨10, 20, 30, 40⟩, some ⟨some ⟨0, []⟩, some 3⟩⟩]

/-- A page with six annotation slots: a link with the URI "hi", an annotation of
another subtype, a slot the engine returns null for, a link to page 3 with no
action, a link with an unreadable rectangle, a link whose destination does not
resolve. -/
def pageMixed : List (Option AnnotAnswer) :=
  [some ⟨2, some ⟨1, 2, 3, 4⟩, some ⟨some ⟨3, [104, 105, 0]⟩, some 9⟩⟩,
   some ⟨1, some ⟨5, 6, 7, 8⟩, none⟩,
   none,
   some ⟨2, some ⟨9, 10, 11, 12⟩, some ⟨none, some 3⟩⟩,
   some ⟨2, none, some ⟨none, some 4⟩⟩,
   some ⟨2, some ⟨1, 2, 3, 4⟩, some ⟨none, some (-1)⟩⟩]

/-- The links `nativeGetLinksForPage` returns for `pageMixed`. -/
def linksOfPageMixed : List PdfLink :=
  [⟨⟨1, 2, 3, 4⟩, some [104, 105], none⟩, ⟨⟨9, 10, 11, 12⟩, none, some 3⟩,
   ⟨⟨1, 2, 3, 4⟩, none, none⟩]

/-! ## Pixel memory: lemmas -/

/-- Masking with `0xFF` keeps the value modulo 256. -/
theorem and_255 (x : Nat) : x &&& 0xFF = x % 256 := by
  have := Nat.and_pow_two_sub_one_eq_mod x 8
  simpa using this

/-- Four channels below 256, shifted to their positions, are or-ed without overlap: the or
is a sum. -/
theorem or_pack (a b g r : Nat) (hb : b < 256) (hg : g < 256) (hr : r < 256) :
    ((a <<< 24) ||| (b <<< 16) ||| (g <<< 8) ||| r) = 2^24 * a + 2^16 * b + 2^8 * g + r := by
  have e1 : (a <<< 24) ||| (b <<< 16) = 2^24 * a + 2^16 * b := by
    rw [Nat.shiftLeft_eq, Nat.shiftLeft_eq, Nat.mul_comm a, Nat.mul_comm b]
    exact (Nat.mul_add_lt_is_or (i := 24) (by omega) a).symm
  have e2 : (2^24 * a + 2^16 * b) ||| (g <<< 8) = 2^24 * a + 2^16 * b + 2^8 * g := by
    have : 2^24 * a + 2^16 * b = 2^16 * (2^8 * a + b) := by ring
    rw [this, Nat.shiftLeft_eq, Nat.mul_comm g]
    exact (Nat.mul_add_lt_is_or (i := 16) (by omega) _).symm
  have e3 : (2^24 * a + 2^16 * b + 2^8 * g) ||| r = 2^24 * a + 2^16 * b + 2^8 * g + r := by
    have : 2^24 * a + 2^16 * b + 2^8 * g = 2^8 * (2^16 * a + 2^8 * b + g) := by ring
    rw [this]
    exact (Nat.mul_add_lt_is_or (i := 8) (by omega) _).symm
  rw [e1, e2, e3]

/-- The source expression as arithmetic on the four channels. -/
theorem swapColor_eq (c : Nat) :
    swapColor c = 2 ^ 24 * (c / 2 ^ 24 % 256) + 2 ^ 16 * (c % 256)
      + 2 ^ 8 * (c / 2 ^ 8 % 256) + c / 2 ^ 16 % 256 := by
  unfold swapColor
  simp only [and_255, Nat.shiftRight_eq_div_pow]
  rw [or_pack _ _ _ _ (Nat.mod_lt _ (by decide)) (Nat.mod_lt _ (by decide))
    (Nat.mod_lt _ (by decide))]
  omega

/-- On a pixel given by its four bytes, `swapColor` exchanges bytes 0 and 2. -/
theorem swapColor_bytes (b0 b1 b2 b3 : Nat) (h0 : b0 < 256) (h1 : b1 < 256) (h2 : b2 < 256)
    (h3 : b3 < 256) :
    swapColor (b0 + 2 ^ 8 * b1 + 2 ^ 16 * b2 + 2 ^ 24 * b3)
      = b2 + 2 ^ 8 * b1 + 2 ^ 16 * b0 + 2 ^ 24 * b3 := by
  rw [swapColor_eq]
  omega

/-- The bytes of a 32-bit value packed from four bytes are those bytes. -/
theorem byteOf_pack (b0 b1 b2 b3 : Byte) :
    byteOf (b0.val + 2 ^ 8 * b1.val + 2 ^ 16 * b2.val + 2 ^ 24 * b3.val) 0 = b0 ∧
    byteOf (b0.val + 2 ^ 8 * b1.val + 2 ^ 16 * b2.val + 2 ^ 24 * b3.val) 1 = b1 ∧
    byteOf (b0.val + 2 ^ 8 * b1.val + 2 ^ 16 * b2.val + 2 ^ 24 * b3.val) 2 = b2 ∧
    byteOf (b0.val + 2 ^ 8 * b1.val + 2 ^ 16 * b2.val + 2 ^ 24 * b3.val) 3 = b3 := by
  have h0 := b0.isLt
  have h1 := b1.isLt
  have h2 := b2.isLt
  have h3 := b3.isLt
  refine ⟨?_, ?_, ?_, ?_⟩ <;> (apply Fin.ext; simp only [byteOf]; omega)

/-- One iteration of the inner loop, on an aligned pixel inside the buffer, exchanges the
bytes at offsets 0 and 2 of the pixel. -/
theorem swapPixel_eq (mem : List Byte) (r x : Nat) (hal : r % 4 = 0)
    (hlen : r + 4 * x + 4 ≤ mem.length) :
    swapPixel (r : Int) mem x = some (swapBytesAt mem (r + 4 * x)) := by
  have hoff : ((r : Int) + 4 * (x : Int)) = ((r + 4 * x : Nat) : Int) := by push_cast; ring
  have hc : (0 : Int) ≤ ((r + 4 * x : Nat) : Int) ∧ ((r + 4 * x : Nat) : Int) % 4 = 0 ∧
      ((r + 4 * x : Nat) : Int).toNat + 4 ≤ mem.length := by
    refine ⟨by omega, by omega, ?_⟩
    rw [Int.toNat_ofNat]; exact hlen
  unfold swapPixel loadU32 storeU32
  rw [hoff, if_pos hc]
  simp only [Option.bind_eq_bind, Option.some_bind, if_pos hc, Int.toNat_ofNat]
  rw [swapColor_bytes _ _ _ _ (Fin.isLt _) (Fin.isLt _) (Fin.isLt _) (Fin.isLt _)]
  obtain ⟨e0, e1, e2, e3⟩ := byteOf_pack (mem.getD (r + 4 * x + 2) 0) (mem.getD (r + 4 * x + 1) 0)
    (mem.getD (r + 4 * x) 0) (mem.getD (r + 4 * x + 3) 0)
  rw [e0, e1, e2, e3]
  have hc2 : (0 : Int) ≤ ((r + 4 * x : Nat) : Int) ∧ ((r + 4 * x : Nat) : Int) % 4 = 0 ∧
      r + 4 * x + 4 ≤ mem.length := ⟨hc.1, hc.2.1, hlen⟩
  rw [if_pos hc2]
  congr 1
  apply List.ext_getElem?
  intro j
  simp only [swapBytesAt, List.getElem?_set, List.length_set, List.getD_eq_getElem?_getD]
  by_cases h3 : r + 4 * x + 3 = j
  · subst h3
    have : r + 4 * x + 3 < mem.length := by omega
    simp [this]
  · by_cases h2 : r + 4 * x + 2 = j
    · subst h2
      simp
    · by_cases h1 : r + 4 * x + 1 = j
      · subst h1
        have : r + 4 * x + 1 < mem.length := by omega
        simp [this]
      · simp [h3, h2, h1]

/-- Exchanging two bytes keeps the size of the buffer. -/
theorem length_swapBytesAt (mem : List Byte) (a : Nat) :
    (swapBytesAt mem a).length = mem.length := by
  simp [swapBytesAt]

/-- The bytes of a buffer after the bytes at `a` and `a + 2` have been exchanged. -/
theorem getElem?_swapBytesAt (mem : List Byte) (a j : Nat) (h : a + 4 ≤ mem.length) :
    (swapBytesAt mem a)[j]? =
      if j = a then mem[a + 2]? else if j = a + 2 then mem[a]? else mem[j]? := by
  have ha : a < mem.length := by omega
  have ha2 : a + 2 < mem.length := by omega
  simp only [swapBytesAt, List.getElem?_set, List.length_set, List.getD_eq_getElem?_getD]
  by_cases h2 : a + 2 = j
  · subst h2
    simp [ha, ha2]
  · by_cases h0 : a = j
    · subst h0
      simp [ha, ha2]
    · have h0' : ¬ j = a := fun e => h0 e.symm
      have h2' : ¬ j = a + 2 := fun e => h2 e.symm
      simp [h0, h2, h0', h2']

/-- The inner loop over `n` pixels of a row that starts at the aligned offset `r`: it
returns, keeps the size, and the byte at offset `k` of the row comes from offset `swz
k`; nothing else moves. -/
theorem swapPixels_fold (mem : List Byte) (r : Nat) (hal : r % 4 = 0) (n : Nat)
    (hlen : r + 4 * n ≤ mem.length) :
    ∃ out, (List.range n).foldlM (swapPixel (r : Int)) mem = some out ∧
      out.length = mem.length ∧
      ∀ j, out[j]? = if r ≤ j ∧ j < r + 4 * n then mem[r + swz (j - r)]? else mem[j]? := by
  induction n with
  | zero =>
    refine ⟨mem, by simp, rfl, ?_⟩
    intro j
    have : ¬ (r ≤ j ∧ j < r + 4 * 0) := by omega
    rw [if_neg this]
  | succ n ih =>
    obtain ⟨mid, hfold, hlenmid, hmid⟩ := ih (by omega)
    have hstep := swapPixel_eq mid r n hal (by omega)
    refine ⟨swapBytesAt mid (r + 4 * n), ?_, ?_, ?_⟩
    · rw [List.range_succ, List.foldlM_append, hfold]
      simp [hstep]
    · rw [length_swapBytesAt, hlenmid]
    · intro j
      rw [getElem?_swapBytesAt mid (r + 4 * n) j (by omega)]
      by_cases h0 : j = r + 4 * n
      · subst h0
        rw [if_pos rfl, hmid, if_neg (by omega), if_pos (by omega)]
        have : swz (r + 4 * n - r) = 4 * n + 2 := by
          unfold swz; rw [if_pos (by omega)]; omega
        rw [this]; rfl
      · rw [if_neg h0]
        by_cases h2 : j = r + 4 * n + 2
        · subst h2
          rw [if_pos rfl, hmid, if_neg (by omega), if_pos (by omega)]
          have : swz (r + 4 * n + 2 - r) = 4 * n := by
            unfold swz; rw [if_neg (by omega), if_pos (by omega)]; omega
          rw [this]
        · rw [if_neg h2, hmid]
          by_cases hin : r ≤ j ∧ j < r + 4 * n
          · rw [if_pos hin, if_pos (by omega)]
          · rw [if_neg hin]
            by_cases hin2 : r ≤ j ∧ j < r + 4 * (n + 1)
            · rw [if_pos hin2]
              have : swz (j - r) = j - r := by
                unfold swz; rw [if_neg (by omega), if_neg (by omega)]
              rw [this]
              congr 1
              omega
            · rw [if_neg hin2]

/-- When the row offset `y * stride` fits an `int`, one iteration of the outer loop is the
inner loop at that offset. -/
theorem swapRow_eq (w s : Nat) (mem : List Byte) (y : Nat)
    (hint : (y : Int) * (s : Int) ≤ INT_MAX) :
    swapRow (w : Int) (s : Int) mem y
      = (List.range w).foldlM (swapPixel ((y * s : Nat) : Int)) mem := by
  have hlo : INT_MIN ≤ (y : Int) * (s : Int) := by
    have : (0 : Int) ≤ (y : Int) * (s : Int) := by positivity
    unfold INT_MIN; omega
  unfold swapRow mulInt
  rw [if_pos ⟨hlo, hint⟩]
  simp

/-- The outer loop over the first `m` rows: it returns, keeps the size, leaves everything
from offset `m * s` on untouched, permutes the pixel bytes of each processed row and
leaves its padding untouched. -/
theorem swapRows_fold (mem : List Byte) (w s : Nat) (h4 : s % 4 = 0) (hws : 4 * w ≤ s)
    (m : Nat) (hlen : m * s ≤ mem.length)
    (hint : ∀ y, y < m → (y : Int) * (s : Int) ≤ INT_MAX) :
    ∃ out, (List.range m).foldlM (swapRow (w : Int) (s : Int)) mem = some out ∧
      out.length = mem.length ∧
      (∀ j, m * s ≤ j → out[j]? = mem[j]?) ∧
      (∀ y k, y < m → k < 4 * w → out[y * s + k]? = mem[y * s + swz k]?) ∧
      (∀ y k, y < m → 4 * w ≤ k → k < s → out[y * s + k]? = mem[y * s + k]?) := by
  induction m with
  | zero =>
    exact ⟨mem, by simp, rfl, fun _ _ => rfl, fun _ _ h => absurd h (by omega),
      fun _ _ h => absurd h (by omega)⟩
  | succ m ih =>
    have hms : (m + 1) * s = m * s + s := by ring
    obtain ⟨mid, hfold, hlenmid, hU, hP, hG⟩ :=
      ih (by omega) (fun y hy => hint y (by omega))
    have hal : (m * s) % 4 = 0 := by
      obtain ⟨t, ht⟩ := Nat.dvd_of_mod_eq_zero h4
      rw [ht, ← Nat.mul_assoc, Nat.mul_comm m 4, Nat.mul_assoc]
      exact Nat.mul_mod_right 4 _
    obtain ⟨out, hrow, hlenout, hout⟩ :=
      swapPixels_fold mid (m * s) hal w (by omega)
    refine ⟨out, ?_, by omega, ?_, ?_, ?_⟩
    · rw [List.range_succ, List.foldlM_append, hfold]
      rw [Nat.cast_mul] at hrow
      simp [swapRow_eq w s mid m (hint m (by omega)), hrow]
    · intro j hj
      rw [hout, if_neg (by omega)]
      exact hU j (by omega)
    · intro y k hy hk
      by_cases hym : y = m
      · subst hym
        rw [hout, if_pos (by omega)]
        have : y * s + k - y * s = k := by omega
        rw [this]
        exact hU _ (by omega)
      · have hlt : y < m := by omega
        have hle : y * s + s ≤ m * s := by
          have := Nat.mul_le_mul_right s (show y + 1 ≤ m by omega)
          rw [Nat.add_mul, Nat.one_mul] at this
          exact this
        rw [hout, if_neg (by omega)]
        exact hP y k hlt hk
    · intro y k hy hk hks
      by_cases hym : y = m
      · subst hym
        rw [hout, if_neg (by omega)]
        exact hU _ (by omega)
      · have hlt : y < m := by omega
        have hle : y * s + s ≤ m * s := by
          have := Nat.mul_le_mul_right s (show y + 1 ≤ m by omega)
          rw [Nat.add_mul, Nat.one_mul] at this
          exact this
        rw [hout, if_neg (by omega)]
        exact hG y k hlt hk hks

/-- Within a pixel, `swz` exchanges offsets 0 and 2 and fixes offsets 1 and 3. -/
theorem swz_four (x : Nat) :
    swz (4 * x) = 4 * x + 2 ∧ swz (4 * x + 1) = 4 * x + 1 ∧ swz (4 * x + 2) = 4 * x ∧
      swz (4 * x + 3) = 4 * x + 3 := by
  refine ⟨?_, ?_, ?_, ?_⟩
  · unfold swz; rw [if_pos (by omega)]
  · unfold swz; rw [if_neg (by omega), if_neg (by omega)]
  · unfold swz; rw [if_neg (by omega), if_pos (by omega)]; omega
  · unfold swz; rw [if_neg (by omega), if_neg (by omega)]

/-- A 32-bit read at an aligned offset inside the buffer, in terms of the four bytes. -/
theorem loadU32_nat (mem : List Byte) (a : Nat) (hal : a % 4 = 0) (hlen : a + 4 ≤ mem.length) :
    loadU32 mem (a : Int) = some ((mem[a]?.getD 0).val + 2 ^ 8 * (mem[a + 1]?.getD 0).val
      + 2 ^ 16 * (mem[a + 2]?.getD 0).val + 2 ^ 24 * (mem[a + 3]?.getD 0).val) := by
  have hc : (0 : Int) ≤ (a : Int) ∧ (a : Int) % 4 = 0 ∧ (a : Int).toNat + 4 ≤ mem.length := by
    refine ⟨by omega, by omega, ?_⟩
    rw [Int.toNat_ofNat]; exact hlen
  unfold loadU32
  rw [if_pos hc]
  simp only [Int.toNat_ofNat, List.getD_eq_getElem?_getD]

/-- The channels of two pixels whose bytes 0 and 2 are exchanged. -/
theorem channels_of_bytes (b0 b1 b2 b3 : Byte) :
    let p := b0.val + 2 ^ 8 * b1.val + 2 ^ 16 * b2.val + 2 ^ 24 * b3.val
    let q := b2.val + 2 ^ 8 * b1.val + 2 ^ 16 * b0.val + 2 ^ 24 * b3.val
    q < 2 ^ 32 ∧ q &&& 0xFF = (p >>> 16) &&& 0xFF ∧ (q >>> 16) &&& 0xFF = p &&& 0xFF ∧
      (q >>> 8) &&& 0xFF = (p >>> 8) &&& 0xFF ∧ (q >>> 24) &&& 0xFF = (p >>> 24) &&& 0xFF := by
  have h0 := b0.isLt
  have h1 := b1.isLt
  have h2 := b2.isLt
  have h3 := b3.isLt
  simp only [and_255, Nat.shiftRight_eq_div_pow, Nat.reducePow]
  have p8 : (b0.val + 256 * b1.val + 65536 * b2.val + 16777216 * b3.val) / 256
      = b1.val + 256 * b2.val + 65536 * b3.val := by omega
  have p16 : (b0.val + 256 * b1.val + 65536 * b2.val + 16777216 * b3.val) / 65536
      = b2.val + 256 * b3.val := by omega
  have p24 : (b0.val + 256 * b1.val + 65536 * b2.val + 16777216 * b3.val) / 16777216
      = b3.val := by omega
  have q8 : (b2.val + 256 * b1.val + 65536 * b0.val + 16777216 * b3.val) / 256
      = b1.val + 256 * b0.val + 65536 * b3.val := by omega
  have q16 : (b2.val + 256 * b1.val + 65536 * b0.val + 16777216 * b3.val) / 65536
      = b0.val + 256 * b3.val := by omega
  have q24 : (b2.val + 256 * b1.val + 65536 * b0.val + 16777216 * b3.val) / 16777216
      = b3.val := by omega
  rw [p8, p16, p24, q8, q16, q24]
  refine ⟨?_, ?_, ?_, ?_, ?_⟩ <;> omega

/-- Claim C2, as amended. For every buffer, `width >= 0`, `height >= 0`, `stride >= 4*width`
with `stride` a multiple of 4, and a buffer of at least `height*stride` bytes, provided the
offset of the last row, `(height-1)*stride`, fits the 32-bit `int` in which the source
computes it: `swapRedBlueChannels` returns a buffer of the same size in which every 32-bit
pixel at row `y < height`, column `x < width` has bits 0-7 and bits 16-23 exchanged, bits
8-15 and bits 24-31 unchanged, and in which every byte outside those pixels (the stride
padding included) is unchanged. -/
theorem swapRedBlueChannels_exchanges_red_and_blue (pixels : List Byte) (width height stride : Int)
    (hw : 0 ≤ width) (hh : 0 ≤ height) (hs : 4 * width ≤ stride) (hs4 : stride % 4 = 0)
    (hlen : height * stride ≤ (pixels.length : Int))
    (hint : (height - 1) * stride ≤ INT_MAX) :
    ∃ out, swapRedBlueChannels pixels width height stride = some out ∧
      out.length = pixels.length ∧
      (∀ y x : Nat, (y : Int) < height → (x : Int) < width →
        ∃ p q, loadU32 pixels ((y : Int) * stride + 4 * (x : Int)) = some p ∧
          loadU32 out ((y : Int) * stride + 4 * (x : Int)) = some q ∧ q < 2 ^ 32 ∧
          q &&& 0xFF = (p >>> 16) &&& 0xFF ∧ (q >>> 16) &&& 0xFF = p &&& 0xFF ∧
          (q >>> 8) &&& 0xFF = (p >>> 8) &&& 0xFF ∧
          (q >>> 24) &&& 0xFF = (p >>> 24) &&& 0xFF) ∧
      (∀ j : Nat,
        (∀ y x : Nat, (y : Int) < height → (x : Int) < width →
          ¬ ((y : Int) * stride + 4 * (x : Int) ≤ (j : Int) ∧
             (j : Int) < (y : Int) * stride + 4 * (x : Int) + 4)) →
        out[j]? = pixels[j]?) := by
  have hs0 : 0 ≤ stride := by omega
  lift width to ℕ using hw with w
  lift height to ℕ using hh with h
  lift stride to ℕ using hs0 with s
  have hws : 4 * w ≤ s := by exact_mod_cast hs
  have h4 : s % 4 = 0 := by omega
  have hlen' : h * s ≤ pixels.length := by exact_mod_cast hlen
  have hint' : ∀ y, y < h → (y : Int) * (s : Int) ≤ INT_MAX := by
    intro y hy
    have h1 : (y : Int) ≤ (h : Int) - 1 := by omega
    have h2 : (y : Int) * (s : Int) ≤ ((h : Int) - 1) * (s : Int) :=
      mul_le_mul_of_nonneg_right h1 (by omega)
    exact le_trans h2 hint
  obtain ⟨out, hfold, hlo, hU, hP, hG⟩ := swapRows_fold pixels w s h4 hws h hlen' hint'
  have hrow : ∀ y, y < h → y * s + s ≤ h * s := by
    intro y hy
    have := Nat.mul_le_mul_right s (show y + 1 ≤ h by omega)
    rw [Nat.add_mul, Nat.one_mul] at this
    exact this
  have hal : ∀ y, (y * s) % 4 = 0 := by
    intro y
    obtain ⟨t, ht⟩ := Nat.dvd_of_mod_eq_zero h4
    rw [ht, ← Nat.mul_assoc, Nat.mul_comm y 4, Nat.mul_assoc]
    exact Nat.mul_mod_right 4 _
  refine ⟨out, ?_, hlo, ?_, ?_⟩
  · simpa [swapRedBlueChannels] using hfold
  · intro y x hy hx
    have hy' : y < h := by exact_mod_cast hy
    have hx' : x < w := by exact_mod_cast hx
    have hr := hrow y hy'
    have ha := hal y
    have hcast : (y : Int) * (s : Int) + 4 * (x : Int) = ((y * s + 4 * x : Nat) : Int) := by
      push_cast; ring
    rw [hcast, loadU32_nat pixels _ (by omega) (by omega),
      loadU32_nat out _ (by omega) (by omega)]
    obtain ⟨z0, z1, z2, z3⟩ := swz_four x
    have e0 := hP y (4 * x) hy' (by omega)
    have e1 := hP y (4 * x + 1) hy' (by omega)
    have e2 := hP y (4 * x + 2) hy' (by omega)
    have e3 := hP y (4 * x + 3) hy' (by omega)
    rw [z0] at e0
    rw [z1] at e1
    rw [z2] at e2
    rw [z3] at e3
    simp only [← Nat.add_assoc] at e0 e1 e2 e3
    rw [e0, e1, e2, e3]
    exact ⟨_, _, rfl, rfl, channels_of_bytes _ _ _ _⟩
  · intro j hj
    by_cases hbig : h * s ≤ j
    · exact hU j hbig
    · have hspos : 0 < s := by
        rcases Nat.eq_zero_or_pos s with h0 | h0
        · subst h0; simp at hbig
        · exact h0
      have hdm : s * (j / s) + j % s = j := Nat.div_add_mod j s
      have hk : j % s < s := Nat.mod_lt _ hspos
      have hy : j / s < h := by
        rw [Nat.div_lt_iff_lt_mul hspos]; omega
      have hcomm : s * (j / s) = j / s * s := Nat.mul_comm _ _
      by_cases hpix : j % s < 4 * w
      · exfalso
        refine hj (j / s) (j % s / 4) (by exact_mod_cast hy) (by omega) ⟨?_, ?_⟩
        · have : j / s * s + 4 * (j % s / 4) ≤ j := by omega
          exact_mod_cast this
        · have : j < j / s * s + 4 * (j % s / 4) + 4 := by omega
          exact_mod_cast this
      · have := hG (j / s) (j % s) hy (by omega) hk
        rw [← hcomm, hdm] at this
        exact this
/-- Claim C2, witness: the amended statement on a buffer of two rows of one pixel with
four bytes of padding each, and the buffer the function returns for it. -/
theorem swapRedBlueChannels_exchanges_red_and_blue_witness :
    (swapRedBlueChannels [1, 2, 3, 4, 5, 6, 7, 8, 9, 10, 11, 12, 13, 14, 15, 16] 1 2 8
        = some [3, 2, 1, 4, 5, 6, 7, 8, 11, 10, 9, 12, 13, 14, 15, 16]) ∧
    ∃ out, swapRedBlueChannels [1, 2, 3, 4, 5, 6, 7, 8, 9, 10, 11, 12, 13, 14, 15, 16] 1 2 8
        = some out ∧
      out.length = [1, 2, 3, 4, 5, 6, 7, 8, 9, 10, 11, 12, 13, 14, 15, 16].length ∧
      (∀ y x : Nat, (y : Int) < 2 → (x : Int) < 1 →
        ∃ p q, loadU32 [1, 2, 3, 4, 5, 6, 7, 8, 9, 10, 11, 12, 13, 14, 15, 16]
            ((y : Int) * 8 + 4 * (x : Int)) = some p ∧
          loadU32 out ((y : Int) * 8 + 4 * (x : Int)) = some q ∧ q < 2 ^ 32 ∧
          q &&& 0xFF = (p >>> 16) &&& 0xFF ∧ (q >>> 16) &&& 0xFF = p &&& 0xFF ∧
          (q >>> 8) &&& 0xFF = (p >>> 8) &&& 0xFF ∧
          (q >>> 24) &&& 0xFF = (p >>> 24) &&& 0xFF) ∧
      (∀ j : Nat,
        (∀ y x : Nat, (y : Int) < 2 → (x : Int) < 1 →
          ¬ ((y : Int) * 8 + 4 * (x : Int) ≤ (j : Int) ∧
             (j : Int) < (y : Int) * 8 + 4 * (x : Int) + 4)) →
        out[j]? = [1, 2, 3, 4, 5, 6, 7, 8, 9, 10, 11, 12, 13, 14, 15, 16][j]?) :=
  ⟨by decide,
    swapRedBlueChannels_exchanges_red_and_blue
      [1, 2, 3, 4, 5, 6, 7, 8, 9, 10, 11, 12, 13, 14, 15, 16] 1 2 8
      (by decide) (by decide) (by decide) (by decide) (by decide) (by decide)⟩

/-- A loop one of whose iterations has no defined result, whatever the state it starts from,
has no defined result. -/
theorem foldlM_none_of_mem {α β : Type} (f : β → α → Option β) (a : α)
    (hf : ∀ b, f b a = none) :
    ∀ (l : List α), a ∈ l → ∀ b, l.foldlM f b = none := by
  intro l
  induction l with
  | nil => intro h; cases h
  | cons c t ih =>
    intro h b
    rw [List.foldlM_cons]
    rcases List.mem_cons.mp h with rfl | ht
    · rw [hf]; rfl
    · cases hc : f b c with
      | none => rfl
      | some b2 => exact ih ht b2

/-- A row whose offset overflows `int` has no defined result. -/
theorem swapRow_none_of_overflow (width stride : Int) (mem : List Byte) (y : Nat)
    (h : INT_MAX < (y : Int) * stride) : swapRow width stride mem y = none := by
  unfold swapRow mulInt
  rw [if_neg (by omega)]
  rfl

/-- When some row offset `y * stride` with `y < height` does not fit an `int`, the
function has no defined result. -/
theorem swapRedBlueChannels_none_of_overflow (pixels : List Byte) (width height stride : Int)
    (y : Nat) (hy : (y : Int) < height) (h : INT_MAX < (y : Int) * stride) :
    swapRedBlueChannels pixels width height stride = none := by
  unfold swapRedBlueChannels
  apply foldlM_none_of_mem _ y (fun b => swapRow_none_of_overflow width stride b y h)
  rw [List.mem_range]
  omega

/-- Claim C2, counterexample. A buffer of 3 GiB with `width = 1`, `height = 3` and
`stride = 2^30` meets every condition of the claim as stated, yet the offset of row 2,
`2 * 2^30`, overflows the `int` product `y * stride` of line 51: the behaviour is
undefined and no buffer is guaranteed. -/
theorem swapRedBlueChannels_int_overflow :
    (0 : Int) ≤ 1 ∧ (0 : Int) ≤ 3 ∧ (4 : Int) * 1 ≤ 1073741824 ∧ (1073741824 : Int) % 4 = 0 ∧
      (3 : Int) * 1073741824 ≤ ((List.replicate 3221225472 (0 : Byte)).length : Int) ∧
      swapRedBlueChannels (List.replicate 3221225472 (0 : Byte)) 1 3 1073741824 = none := by
  refine ⟨by decide, by decide, by decide, by decide, ?_, ?_⟩
  · rw [List.length_replicate]; decide
  · exact swapRedBlueChannels_none_of_overflow _ 1 3 1073741824 2 (by decide) (by decide)

/-! ## `nativeRenderPageToBitmap`: resources, page index, scale -/

/-- Every exit path closes the page it loaded and destroys the engine bitmap it
created, and it unlocks the pixels it locked on every path but one: when
`AndroidBitmap_lockPixels` returns success with a null address, the lock is
taken and never released. -/
theorem render_releases_unless_null_pixels (K : Consts) (E : RenderEnv) (heap : List (Nat × DocumentWrapper))
    (handle : Nat) (pageIndex : Int) (bitmap : Option (List Byte)) (scale : jfloat)
    (r : RenderResult)
    (h : nativeRenderPageToBitmap K E heap handle pageIndex bitmap scale = some r) :
    pagesClosed r.trace = pagesLoaded r.trace ∧
    bitmapsDestroyed r.trace = bitmapsCreated r.trace ∧
    (locksReleased r.trace = locksAcquired K r.trace ∨
      (E.getInfo = K.ANDROID_BITMAP_RESULT_SUCCESS ∧
       E.lockPixels = K.ANDROID_BITMAP_RESULT_SUCCESS ∧ E.pixelsNonNull = false ∧
       locksAcquired K r.trace = 1 ∧ locksReleased r.trace = 0)) := by
  unfold nativeRenderPageToBitmap at h
  split at h
  · cases h; simp [pagesClosed, pagesLoaded, bitmapsDestroyed, bitmapsCreated, locksReleased, locksAcquired]
  · split at h
    · cases h; simp [pagesClosed, pagesLoaded, bitmapsDestroyed, bitmapsCreated, locksReleased, locksAcquired]
    · split at h
      · cases h
      · split at h
        · cases h; simp [pagesClosed, pagesLoaded, bitmapsDestroyed, bitmapsCreated, locksReleased, locksAcquired]
        · simp only at h
          split at h
          · cases h; simp [pagesClosed, pagesLoaded, bitmapsDestroyed, bitmapsCreated, locksReleased, locksAcquired]
          · split at h
            · cases h; simp [pagesClosed, pagesLoaded, bitmapsDestroyed, bitmapsCreated, locksReleased, locksAcquired]
            · split at h
              · cases h; simp [pagesClosed, pagesLoaded, bitmapsDestroyed, bitmapsCreated, locksReleased, locksAcquired]
              · rename_i hinfo
                split at h
                · rename_i hlock
                  cases h
                  have hinfo2 : E.getInfo = K.ANDROID_BITMAP_RESULT_SUCCESS := not_not.mp hinfo
                  by_cases hl : E.lockPixels = K.ANDROID_BITMAP_RESULT_SUCCESS
                  · have hp : E.pixelsNonNull = false := by
                      rcases hlock with h1 | h1
                      · exact absurd hl h1
                      · exact h1
                    simp [pagesClosed, pagesLoaded, bitmapsDestroyed, bitmapsCreated,
                      locksReleased, locksAcquired, hl, hp, hinfo2]
                  · simp [pagesClosed, pagesLoaded, bitmapsDestroyed, bitmapsCreated,
                      locksReleased, locksAcquired, hl]
                · rename_i hlock
                  have hl : E.lockPixels = K.ANDROID_BITMAP_RESULT_SUCCESS := by
                    by_contra hne; exact hlock (Or.inl hne)
                  split at h
                  · cases h
                    simp [pagesClosed, pagesLoaded, bitmapsDestroyed, bitmapsCreated,
                      locksReleased, locksAcquired, hl]
                  · split at h
                    · cases h
                      rename_i hc
                      simp [pagesClosed, pagesLoaded, bitmapsDestroyed, bitmapsCreated,
                        locksReleased, locksAcquired, hl, hc]
                    · rename_i hc
                      split at h
                      · cases h
                      · cases h
                        simp [pagesClosed, pagesLoaded, bitmapsDestroyed, bitmapsCreated,
                          locksReleased, locksAcquired, hl, hc]

/-- Claim C1, the failing input evaluated. With a valid handle, page 0 of a one-page
document, `AndroidBitmap_getInfo` and `AndroidBitmap_lockPixels` both returning success
and the address stored by `lockPixels` null, the call throws `IOException`, returns
false, closes the page it loaded (1 loaded, 1 closed) and leaves the pixel lock it
acquired outstanding (1 acquired, 0 released). -/
theorem renderPageToBitmap_null_pixels_keeps_lock :
    (nativeRenderPageToBitmap headerConsts envNullPixels heapOneDocument 1 0
        (some [1, 2, 3, 4]) 0).map
      (fun r => (r.ret, r.thrown, locksAcquired headerConsts r.trace, locksReleased r.trace,
        pagesLoaded r.trace, pagesClosed r.trace))
      = some (false, some ⟨.IOException, "Failed to lock bitmap pixels"⟩, 1, 0, 1, 1) := by
  decide

/-- The successful render of a one-pixel bitmap, evaluated: the calls made, in order,
and the pixel with its first and third bytes exchanged. -/
theorem render_one_pixel_eval :
    nativeRenderPageToBitmap headerConsts envOnePixel heapOneDocument 1 0 (some [1, 2, 3, 4]) 0
      = some renderedOnePixel := by
  decide

/-- Claim C6. For every valid handle (non-zero, the address of a live wrapper that holds
a document) and every non-null buffer, if `pageIndex < 0` or `pageIndex >= pageCount`
then `renderPageToBitmap` returns false with `IndexOutOfBoundsException` pending and the
buffer as it was; the only call it made is `FPDF_GetPageCount`, so no page was loaded
and no pixel lock was taken. -/
theorem render_index_out_of_bounds (K : Consts) (E : RenderEnv)
    (heap : List (Nat × DocumentWrapper)) (handle : Nat) (pageIndex : Int) (mem : List Byte)
    (scale : jfloat) (wrapper : DocumentWrapper) (doc : Nat)
    (hhandle : handle ≠ 0) (hlive : heap.lookup handle = some wrapper)
    (hopen : wrapper.document = some doc)
    (hindex : pageIndex < 0 ∨ pageIndex ≥ E.pageCount) :
    ∃ r, nativeRenderPageToBitmap K E heap handle pageIndex (some mem) scale = some r ∧
      r.ret = false ∧
      r.thrown = some ⟨.IndexOutOfBoundsException, "Invalid page index"⟩ ∧
      r.pixels = some mem ∧
      r.trace = [Call.FPDF_GetPageCount doc E.pageCount] ∧
      pagesLoaded r.trace = 0 ∧
      (∀ c ∈ r.trace, ∀ code nonNull, c ≠ Call.AndroidBitmap_lockPixels code nonNull) := by
  refine ⟨⟨false, some ⟨.IndexOutOfBoundsException, "Invalid page index"⟩,
    [Call.FPDF_GetPageCount doc E.pageCount], some mem⟩, ?_, rfl, rfl, rfl, rfl, ?_, ?_⟩
  · unfold nativeRenderPageToBitmap
    simp only [if_neg hhandle, hlive, hopen, if_pos hindex]
  · simp [pagesLoaded]
  · intro c hc code nonNull
    simp only [List.mem_singleton] at hc
    subst hc
    simp

/-- Claim C6, witness: page index 3 on a one-page document. -/
theorem render_index_out_of_bounds_witness :
    (1 : Nat) ≠ 0 ∧ List.lookup 1 heapOneDocument = some ⟨some 5⟩ ∧
    (⟨some 5⟩ : DocumentWrapper).document = some 5 ∧
    ((3 : Int) < 0 ∨ (3 : Int) ≥ envOnePixel.pageCount) ∧
    ∃ r, nativeRenderPageToBitmap headerConsts envOnePixel heapOneDocument 1 3
        (some [1, 2, 3, 4]) 0 = some r ∧
      r.ret = false ∧
      r.thrown = some ⟨.IndexOutOfBoundsException, "Invalid page index"⟩ ∧
      r.pixels = some [1, 2, 3, 4] ∧
      r.trace = [Call.FPDF_GetPageCount 5 envOnePixel.pageCount] ∧
      pagesLoaded r.trace = 0 ∧
      (∀ c ∈ r.trace, ∀ code nonNull, c ≠ Call.AndroidBitmap_lockPixels code nonNull) :=
  ⟨by decide, by decide, rfl, by decide,
    render_index_out_of_bounds headerConsts envOnePixel heapOneDocument 1 3 [1, 2, 3, 4] 0
      ⟨some 5⟩ 5 (by decide) (by decide) rfl (by decide)⟩

/-- Whenever the render draws, it draws into the rectangle `0, 0, targetWidth,
targetHeight`. -/
theorem render_draw_rectangle (K : Consts) (E : RenderEnv) (heap : List (Nat × DocumentWrapper))
    (handle : Nat) (pageIndex : Int) (bitmap : Option (List Byte)) (scale : jfloat)
    (r : RenderResult)
    (h : nativeRenderPageToBitmap K E heap handle pageIndex bitmap scale = some r)
    (b p : Nat) (sx sy w ht rot : Int) (fl : Nat)
    (hc : Call.FPDF_RenderPageBitmap b p sx sy w ht rot fl ∈ r.trace) :
    sx = 0 ∧ sy = 0 ∧ w = toInt32 E.bitmapInfo.width ∧ ht = toInt32 E.bitmapInfo.height := by
  unfold nativeRenderPageToBitmap at h
  split at h
  · cases h; simp at hc
  · split at h
    · cases h; simp at hc
    · split at h
      · cases h
      · split at h
        · cases h; simp at hc
        · simp only at h
          split at h
          · cases h; simp at hc
          · split at h
            · cases h; simp at hc
            · split at h
              · cases h; simp at hc
              · split at h
                · cases h; simp at hc
                · split at h
                  · cases h; simp at hc
                  · split at h
                    · cases h; simp at hc
                    · split at h
                      · cases h
                      · cases h
                        simp at hc
                        obtain ⟨-, -, rfl, rfl, rfl, rfl, -, -⟩ := hc
                        exact ⟨rfl, rfl, rfl, rfl⟩

/-- Claim C10. `renderPageToBitmap` does not depend on its scale argument: for every
engine state, handle, page index and buffer, two calls that differ only in scale have
the same outcome (the same calls with the same arguments in the same order, the same
pending exception, the same return value, the same buffer contents), and when the page
is drawn it is drawn into the full rectangle `0, 0, targetWidth, targetHeight`. -/
theorem render_ignores_scale (K : Consts) (E : RenderEnv) (heap : List (Nat × DocumentWrapper))
    (handle : Nat) (pageIndex : Int) (bitmap : Option (List Byte)) (scale1 scale2 : jfloat) :
    nativeRenderPageToBitmap K E heap handle pageIndex bitmap scale1
        = nativeRenderPageToBitmap K E heap handle pageIndex bitmap scale2 ∧
      ∀ r, nativeRenderPageToBitmap K E heap handle pageIndex bitmap scale1 = some r →
        ∀ (b p : Nat) (sx sy w ht rot : Int) (fl : Nat),
          Call.FPDF_RenderPageBitmap b p sx sy w ht rot fl ∈ r.trace →
          sx = 0 ∧ sy = 0 ∧ w = toInt32 E.bitmapInfo.width ∧ ht = toInt32 E.bitmapInfo.height :=
  ⟨rfl, fun r h b p sx sy w ht rot fl hc =>
    render_draw_rectangle K E heap handle pageIndex bitmap scale1 r h b p sx sy w ht rot fl hc⟩

/-- Claim C10, witness: the one-pixel render at scale 1.0 and at scale 2.0 (the bit
patterns `0x3F800000` and `0x40000000`). -/
theorem render_ignores_scale_witness :
    nativeRenderPageToBitmap headerConsts envOnePixel heapOneDocument 1 0 (some [1, 2, 3, 4])
        1065353216 = some renderedOnePixel ∧
      Call.FPDF_RenderPageBitmap 9 7 0 0 1 1 0 257 ∈ renderedOnePixel.trace ∧
      nativeRenderPageToBitmap headerConsts envOnePixel heapOneDocument 1 0 (some [1, 2, 3, 4])
        1065353216
        = nativeRenderPageToBitmap headerConsts envOnePixel heapOneDocument 1 0
            (some [1, 2, 3, 4]) 1073741824 ∧
      ((0 : Int) = 0 ∧ (0 : Int) = 0 ∧ (1 : Int) = toInt32 envOnePixel.bitmapInfo.width ∧
        (1 : Int) = toInt32 envOnePixel.bitmapInfo.height) :=
  ⟨by decide, by decide,
    (render_ignores_scale headerConsts envOnePixel heapOneDocument 1 0 (some [1, 2, 3, 4])
      1065353216 1073741824).1,
    (render_ignores_scale headerConsts envOnePixel heapOneDocument 1 0 (some [1, 2, 3, 4])
      1065353216 1073741824).2 renderedOnePixel (by decide) 9 7 0 0 1 1 0 257 (by decide)⟩

/-! ## The engine guard and the document handle -/

/-- Counting open documents along a trace made of two parts. -/
theorem openAfter_append (n : Nat) (a b : List Call) :
    openAfter n (a ++ b) = openAfter (openAfter n a) b := by
  simp [openAfter, List.foldl_append]

/-- The teardown check along a trace made of two parts. -/
theorem teardownOnlyWhenNoneOpen_append (a b : List Call) : ∀ n,
    teardownOnlyWhenNoneOpen n (a ++ b)
      = (teardownOnlyWhenNoneOpen n a && teardownOnlyWhenNoneOpen (openAfter n a) b) := by
  induction a with
  | nil => intro n; simp [teardownOnlyWhenNoneOpen, openAfter]
  | cons c t ih =>
    intro n
    have e : (c :: t) ++ b = c :: (t ++ b) := rfl
    rw [e]
    simp only [teardownOnlyWhenNoneOpen, ih, openAfter, List.foldl_cons, Bool.and_assoc]

/-- A trace that keeps at most one document open starts with at most one open. -/
theorem atMostOneOpen_head (b : List Call) (n : Nat) (h : atMostOneOpen n b = true) : n ≤ 1 := by
  cases b with
  | nil => simpa [atMostOneOpen] using h
  | cons c t =>
    simp only [atMostOneOpen, Bool.and_eq_true, decide_eq_true_eq] at h
    exact h.1

/-- A trace that keeps at most one document open does so in each of its two parts. -/
theorem atMostOneOpen_append (a b : List Call) : ∀ n,
    atMostOneOpen n (a ++ b) = true →
      atMostOneOpen n a = true ∧ atMostOneOpen (openAfter n a) b = true := by
  induction a with
  | nil =>
    intro n h
    simp only [List.nil_append] at h
    exact ⟨by simpa [atMostOneOpen] using atMostOneOpen_head b n h, by simpa [openAfter] using h⟩
  | cons c t ih =>
    intro n h
    have e : (c :: t) ++ b = c :: (t ++ b) := rfl
    rw [e] at h
    simp only [atMostOneOpen, Bool.and_eq_true, decide_eq_true_eq] at h
    obtain ⟨h1, h2⟩ := ih _ h.2
    refine ⟨?_, ?_⟩
    · simp only [atMostOneOpen, Bool.and_eq_true, decide_eq_true_eq]
      exact ⟨h.1, h1⟩
    · simpa [openAfter] using h2

/-- The two runs of `cleanup()` on a wrapper that holds a document: one native close, then
the teardown if the engine was initialised; the destructor's run adds nothing. -/
theorem closeWrapper_open (w : DocumentWrapper) (p : Process) (d : Nat)
    (h : w.document = some d) :
    closeWrapper w p = (⟨none⟩, { p with
      pdfium_initialized := false,
      trace := p.trace ++ [Call.FPDF_CloseDocument d]
        ++ (if p.pdfium_initialized then [Call.FPDF_DestroyLibrary] else []) }) := by
  unfold closeWrapper DocumentWrapper.cleanup
  cases hi : p.pdfium_initialized <;> simp [h, hi]

/-- The process after `nativeOpenDocument`: the calls it added to the trace and what it did
to the heap, by outcome. -/
theorem open_process (K : Consts) (p : Process) (jPath jPassword : Option String)
    (native : LoadOutcome) (allocOk : Bool) :
    ∃ pre, (pre = [] ∨ pre = [Call.FPDF_InitLibrary]) ∧
      (((nativeOpenDocument K p jPath jPassword native allocOk).process.trace = p.trace ∧
        (nativeOpenDocument K p jPath jPassword native allocOk).process.heap = p.heap) ∨
       (∃ a b e, (nativeOpenDocument K p jPath jPassword native allocOk).process.trace
            = p.trace ++ (pre ++ [Call.FPDF_LoadDocument a b none, Call.FPDF_GetLastError e]) ∧
          (nativeOpenDocument K p jPath jPassword native allocOk).process.heap = p.heap) ∨
       (∃ a b d, (nativeOpenDocument K p jPath jPassword native allocOk).process.trace
            = p.trace ++ (pre ++ [Call.FPDF_LoadDocument a b (some d)]) ∧
          (nativeOpenDocument K p jPath jPassword native allocOk).process.heap
            = (p.allocated + 1, ⟨some d⟩) :: p.heap) ∨
       (∃ a b d, (nativeOpenDocument K p jPath jPassword native allocOk).process.trace
            = p.trace ++ (pre ++ [Call.FPDF_LoadDocument a b (some d), Call.FPDF_CloseDocument d]) ∧
          (nativeOpenDocument K p jPath jPassword native allocOk).process.heap = p.heap)) := by
  refine ⟨if p.pdfium_initialized then [] else [Call.FPDF_InitLibrary], ?_, ?_⟩
  · cases p.pdfium_initialized <;> simp
  · unfold nativeOpenDocument
    by_cases hpath : jstringToStdString jPath = ""
    · left; simp [hpath]
    · right
      cases native with
      | failed err =>
        left
        refine ⟨jstringToStdString jPath, passwordArg (passwordString jPassword), err, ?_⟩
        cases hi : p.pdfium_initialized <;>
          by_cases he : err = K.FPDF_ERR_PASSWORD <;>
          by_cases hpw : passwordString jPassword = "" <;>
          simp [hpath, hi, he, hpw]
      | loaded doc =>
        right
        cases allocOk with
        | true =>
          left
          refine ⟨jstringToStdString jPath, passwordArg (passwordString jPassword), doc, ?_⟩
          cases hi : p.pdfium_initialized <;> simp [hpath, hi]
        | false =>
          right
          refine ⟨jstringToStdString jPath, passwordArg (passwordString jPassword), doc, ?_⟩
          cases hi : p.pdfium_initialized <;> simp [hpath, hi]

/-- Calls among which there is no `FPDF_DestroyLibrary` pass the teardown check. -/
theorem teardownOnly_of_no_destroy (new : List Call) (hnd : ∀ c ∈ new, c ≠ Call.FPDF_DestroyLibrary) :
    ∀ n, teardownOnlyWhenNoneOpen n new = true := by
  induction new with
  | nil => intro n; rfl
  | cons c t ih =>
    intro n
    have hc : c ≠ Call.FPDF_DestroyLibrary := hnd c (List.mem_cons_self _ _)
    simp only [teardownOnlyWhenNoneOpen, Bool.and_eq_true, Bool.or_eq_true, bne_iff_ne, ne_eq]
    exact ⟨Or.inl hc, ih (fun c2 h2 => hnd c2 (List.mem_cons_of_mem _ h2)) _⟩

/-- A handle that looks up to a wrapper is on the heap with it. -/
theorem mem_of_lookup (l : List (Nat × DocumentWrapper)) (handle : Nat) (w : DocumentWrapper) :
    l.lookup handle = some w → (handle, w) ∈ l := by
  induction l with
  | nil => intro h; simp at h
  | cons e t ih =>
    intro h
    obtain ⟨k, v⟩ := e
    rw [List.lookup_cons] at h
    by_cases hk : handle = k
    · subst hk
      simp only [beq_self_eq_true] at h
      cases h
      exact List.mem_cons_self _ _
    · have : (handle == k) = false := by simpa using hk
      rw [this] at h
      exact List.mem_cons_of_mem _ (ih h)

/-- One call of a history: it only appends to the trace, and if the appended calls keep at
most one document open it preserves `HistoryInv` and tears down only with no document
open. -/
theorem step_preserves (K : Consts) (p p2 : Process) (op : Op)
    (hstep : step K p op = some p2) :
    ∃ new, p2.trace = p.trace ++ new ∧
      (HistoryInv p → atMostOneOpen (openAfter 0 p.trace) new = true →
        HistoryInv p2 ∧ teardownOnlyWhenNoneOpen (openAfter 0 p.trace) new = true) := by
  cases op with
  | openDocument jPath jPassword native allocOk =>
    simp only [step, Option.some.injEq] at hstep
    subst hstep
    obtain ⟨pre, hpre, hcases⟩ := open_process K p jPath jPassword native allocOk
    have hpre0 : ∀ n, openAfter n pre = n := by
      intro n; rcases hpre with rfl | rfl <;> rfl
    have hprend : ∀ c ∈ pre, c ≠ Call.FPDF_DestroyLibrary := by
      intro c hc
      rcases hpre with rfl | rfl
      · cases hc
      · simp only [List.mem_singleton] at hc; subst hc; simp
    rcases hcases with ⟨ht, hh⟩ | ⟨a, b, e, ht, hh⟩ | ⟨a, b, d, ht, hh⟩ | ⟨a, b, d, ht, hh⟩
    · refine ⟨[], by simpa using ht, ?_⟩
      intro hinv _
      refine ⟨⟨?_, ?_⟩, rfl⟩
      · rw [ht, hh]; exact hinv.1
      · rw [hh]; exact hinv.2
    · refine ⟨_, ht, ?_⟩
      intro hinv _
      refine ⟨⟨?_, ?_⟩, ?_⟩
      · rw [ht, hh, openAfter_append, openAfter_append, hpre0]
        exact hinv.1
      · rw [hh]; exact hinv.2
      · apply teardownOnly_of_no_destroy
        intro c hc
        rcases List.mem_append.mp hc with h1 | h1
        · exact hprend c h1
        · simp only [List.mem_cons, List.mem_singleton, List.not_mem_nil, or_false] at h1
          rcases h1 with rfl | rfl <;> simp
    · refine ⟨_, ht, ?_⟩
      intro hinv _
      refine ⟨⟨?_, ?_⟩, ?_⟩
      · rw [ht, hh, openAfter_append, openAfter_append, hpre0, hinv.1]
        rfl
      · rw [hh]
        intro e he
        rcases List.mem_cons.mp he with rfl | h2
        · simp
        · exact hinv.2 e h2
      · apply teardownOnly_of_no_destroy
        intro c hc
        rcases List.mem_append.mp hc with h1 | h1
        · exact hprend c h1
        · simp only [List.mem_singleton] at h1
          subst h1; simp
    · refine ⟨_, ht, ?_⟩
      intro hinv _
      refine ⟨⟨?_, ?_⟩, ?_⟩
      · rw [ht, hh, openAfter_append, openAfter_append, hpre0, hinv.1]
        simp [openAfter, openStep]
      · rw [hh]; exact hinv.2
      · apply teardownOnly_of_no_destroy
        intro c hc
        rcases List.mem_append.mp hc with h1 | h1
        · exact hprend c h1
        · simp only [List.mem_cons, List.mem_singleton, List.not_mem_nil, or_false] at h1
          rcases h1 with rfl | rfl <;> simp
  | closeDocument handle =>
    simp only [step, nativeCloseDocument] at hstep
    by_cases h0 : handle = 0
    · rw [if_pos h0] at hstep
      cases hstep
      exact ⟨[], by simp, fun hinv _ => ⟨hinv, rfl⟩⟩
    · rw [if_neg h0] at hstep
      cases hl : p.heap.lookup handle with
      | none => rw [hl] at hstep; cases hstep
      | some w =>
        rw [hl] at hstep
        simp only [Option.some.injEq] at hstep
        have hmem : (handle, w) ∈ p.heap := mem_of_lookup p.heap handle w hl
        cases hd : w.document with
        | none =>
          refine ⟨if p.pdfium_initialized then [Call.FPDF_DestroyLibrary] else [], ?_, ?_⟩
          · subst hstep
            unfold closeWrapper DocumentWrapper.cleanup
            cases hi : p.pdfium_initialized <;> simp [hd, hi]
          · intro hinv _
            exact absurd hd (hinv.2 _ hmem)
        | some d =>
          rw [closeWrapper_open w p d hd] at hstep
          subst hstep
          refine ⟨[Call.FPDF_CloseDocument d]
            ++ (if p.pdfium_initialized then [Call.FPDF_DestroyLibrary] else []), ?_, ?_⟩
          · simp [List.append_assoc]
          · intro hinv hone
            have hn1 : openAfter 0 p.trace ≤ 1 := atMostOneOpen_head _ _ hone
            have hlen : p.heap.length = 1 := by
              have hpos : 0 < p.heap.length := List.length_pos_of_mem hmem
              have := hinv.1
              omega
            have hn : openAfter 0 p.trace = 1 := by rw [hinv.1, hlen]
            obtain ⟨e, he⟩ := List.length_eq_one.mp hlen
            have hee : e = (handle, w) := by
              rw [he] at hmem
              exact (List.mem_singleton.mp hmem).symm
            refine ⟨⟨?_, ?_⟩, ?_⟩
            · simp only [he, hee]
              rw [List.append_assoc, openAfter_append, hn]
              cases p.pdfium_initialized <;> simp [openAfter, openStep]
            · simp only [he, hee]
              intro e2 he2
              simp at he2
            · rw [hn]
              cases p.pdfium_initialized <;>
                simp [teardownOnlyWhenNoneOpen, openStep]

/-- A whole history: the same as `step_preserves`, for the calls the history appends. -/
theorem run_preserves (K : Consts) : ∀ (ops : List Op) (p p2 : Process),
    run K p ops = some p2 →
    ∃ new, p2.trace = p.trace ++ new ∧
      (HistoryInv p → atMostOneOpen (openAfter 0 p.trace) new = true →
        HistoryInv p2 ∧ teardownOnlyWhenNoneOpen (openAfter 0 p.trace) new = true) := by
  intro ops
  induction ops with
  | nil =>
    intro p p2 h
    simp only [run, List.foldlM_nil] at h
    cases h
    exact ⟨[], by simp, fun hinv _ => ⟨hinv, rfl⟩⟩
  | cons op rest ih =>
    intro p p2 h
    simp only [run, List.foldlM_cons] at h
    cases hs : step K p op with
    | none => rw [hs] at h; cases h
    | some q =>
      rw [hs] at h
      obtain ⟨new1, ht1, h1⟩ := step_preserves K p q op hs
      obtain ⟨new2, ht2, h2⟩ := ih q p2 h
      refine ⟨new1 ++ new2, by rw [ht2, ht1, List.append_assoc], ?_⟩
      intro hinv hone
      obtain ⟨ha, hb⟩ := atMostOneOpen_append new1 new2 _ hone
      obtain ⟨hq, hsafe1⟩ := h1 hinv ha
      have hq0 : openAfter 0 q.trace = openAfter (openAfter 0 p.trace) new1 := by
        rw [ht1, openAfter_append]
      rw [← hq0] at hb
      obtain ⟨hp2, hsafe2⟩ := h2 hq hb
      refine ⟨hp2, ?_⟩
      rw [teardownOnlyWhenNoneOpen_append, hsafe1, ← hq0, hsafe2]
      rfl

/-- Claim C3, counterexample. Two documents are opened, then the first is closed: the
close calls `FPDF_DestroyLibrary` while the second document, at handle 2, is still
open. -/
theorem teardown_with_document_open :
    (run headerConsts Process.start twoDocumentsHistory).map
        (fun p => (p.trace, p.heap, teardownOnlyWhenNoneOpen 0 p.trace))
      = some ([Call.FPDF_InitLibrary, Call.FPDF_LoadDocument "a.pdf" none (some 10),
          Call.FPDF_LoadDocument "b.pdf" none (some 11), Call.FPDF_CloseDocument 10,
          Call.FPDF_DestroyLibrary], [(2, ⟨some 11⟩)], false) := by
  decide

/-- Claim C3, as amended. In every sequential history of `openDocument` and
`closeDocument` calls that keeps at most one document open at any moment, every
`FPDF_DestroyLibrary` is made at a moment when no document is open. -/
theorem teardown_only_when_none_open_one_at_a_time (K : Consts) (ops : List Op) (p : Process)
    (hrun : run K Process.start ops = some p)
    (hone : atMostOneOpen 0 p.trace = true) :
    teardownOnlyWhenNoneOpen 0 p.trace = true := by
  obtain ⟨new, ht, h⟩ := run_preserves K ops Process.start p hrun
  have ht2 : p.trace = new := by simpa [Process.start] using ht
  have hinv : HistoryInv Process.start := ⟨rfl, fun e he => by simp [Process.start] at he⟩
  rw [ht2] at hone ⊢
  exact (h hinv hone).2

/-- Claim C3, witness: two documents opened and closed one after the other; the engine
is torn down twice, each time with no document open. -/
theorem teardown_only_when_none_open_one_at_a_time_witness :
    run headerConsts Process.start oneAtATimeHistory = some oneAtATimeFinal ∧
    atMostOneOpen 0 oneAtATimeFinal.trace = true ∧
    teardownOnlyWhenNoneOpen 0 oneAtATimeFinal.trace = true :=
  ⟨by decide, by decide,
   teardown_only_when_none_open_one_at_a_time headerConsts oneAtATimeHistory oneAtATimeFinal
     (by decide) (by decide)⟩

/-- Counting native closes along a trace made of two parts. -/
theorem nativeCloses_append (a b : List Call) :
    nativeCloses (a ++ b) = nativeCloses a + nativeCloses b := by
  simp [nativeCloses, List.countP_append]

/-- The method `cleanup()` on a wrapper whose `document` is null makes no native close and
leaves it null. -/
theorem cleanup_closed (w : DocumentWrapper) (q : Process) (h : w.document = none) :
    nativeCloses (w.cleanup q).2.trace = nativeCloses q.trace ∧ (w.cleanup q).1.document = none := by
  unfold DocumentWrapper.cleanup
  cases hi : q.pdfium_initialized <;> simp [h, hi, nativeCloses_append, nativeCloses]

/-- A freed handle no longer looks up to a wrapper. -/
theorem lookup_filter_ne (l : List (Nat × DocumentWrapper)) (handle : Nat) :
    (l.filter (fun e => e.1 != handle)).lookup handle = none := by
  induction l with
  | nil => rfl
  | cons e t ih =>
    obtain ⟨k, v⟩ := e
    by_cases hk : k = handle
    · subst hk
      simpa [List.filter_cons] using ih
    · have h1 : (k != handle) = true := by simpa using hk
      have h2 : (handle == k) = false := by simpa using fun h => hk h.symm
      simp only [List.filter_cons, h1, if_true, List.lookup_cons, h2]
      exact ih

/-- Claim C4. For every wrapper that holds an open document and every `closeDocument`
call on its handle: the call returns, makes exactly one native `FPDF_CloseDocument`
call, that of the wrapper's document, and frees the wrapper; the one native close is
made by the explicit `cleanup()` and none by the destructor's; the wrapper is left with
a null `document`; a further `cleanup()` on it makes no native close; and for any
wrapper whose `document` is already null, `cleanup()` makes no native close and leaves
it null. -/
theorem closeDocument_closes_native_document_once (p : Process) (handle : Nat)
    (w : DocumentWrapper) (d : Nat)
    (hhandle : handle ≠ 0) (hlive : p.heap.lookup handle = some w)
    (hopen : w.document = some d) :
    (∃ p2 calls, nativeCloseDocument p handle = some p2 ∧ p2.trace = p.trace ++ calls ∧
        nativeCloses calls = 1 ∧ calls.count (Call.FPDF_CloseDocument d) = 1 ∧
        p2.heap.lookup handle = none) ∧
      nativeCloses (w.cleanup p).2.trace = nativeCloses p.trace + 1 ∧
      nativeCloses (closeWrapper w p).2.trace = nativeCloses p.trace + 1 ∧
      (closeWrapper w p).1.document = none ∧
      (∀ q, nativeCloses ((closeWrapper w p).1.cleanup q).2.trace = nativeCloses q.trace) ∧
      (∀ (w0 : DocumentWrapper) (q : Process), w0.document = none →
        nativeCloses (w0.cleanup q).2.trace = nativeCloses q.trace ∧
        (w0.cleanup q).1.document = none) := by
  have hcw := closeWrapper_open w p d hopen
  refine ⟨?_, ?_, ?_, ?_, ?_, ?_⟩
  · refine ⟨{ (closeWrapper w p).2 with
        heap := (closeWrapper w p).2.heap.filter (fun e => e.1 != handle) },
      [Call.FPDF_CloseDocument d]
        ++ (if p.pdfium_initialized then [Call.FPDF_DestroyLibrary] else []), ?_, ?_, ?_, ?_, ?_⟩
    · unfold nativeCloseDocument
      rw [if_neg hhandle, hlive]
    · rw [hcw]; simp [List.append_assoc]
    · cases p.pdfium_initialized <;> simp [nativeCloses]
    · cases p.pdfium_initialized <;> simp
    · exact lookup_filter_ne _ handle
  · unfold DocumentWrapper.cleanup
    cases hi : p.pdfium_initialized <;> simp [hopen, hi, nativeCloses_append, nativeCloses]
  · rw [hcw]
    cases hi : p.pdfium_initialized <;> simp [nativeCloses_append, nativeCloses]
  · rw [hcw]
  · intro q
    rw [hcw]
    exact (cleanup_closed ⟨none⟩ q rfl).1
  · intro w0 q h0
    exact cleanup_closed w0 q h0

/-- Claim C4, witness: closing handle 1 of a process with one open document. -/
theorem closeDocument_closes_native_document_once_witness :
    (1 : Nat) ≠ 0 ∧ processOneOpen.heap.lookup 1 = some ⟨some 5⟩ ∧
    nativeCloseDocument processOneOpen 1
      = some ⟨false, [], 1,
          [Call.FPDF_InitLibrary, Call.FPDF_LoadDocument "a.pdf" none (some 5),
           Call.FPDF_CloseDocument 5, Call.FPDF_DestroyLibrary]⟩ ∧
    nativeCloses (closeWrapper ⟨some 5⟩ processOneOpen).2.trace
      = nativeCloses processOneOpen.trace + 1 ∧
    (closeWrapper ⟨some 5⟩ processOneOpen).1.document = none :=
  ⟨by decide, by decide, by decide,
    (closeDocument_closes_native_document_once processOneOpen 1 ⟨some 5⟩ 5 (by decide)
      (by decide) rfl).2.2.1,
    (closeDocument_closes_native_document_once processOneOpen 1 ⟨some 5⟩ 5 (by decide)
      (by decide) rfl).2.2.2.1⟩

/-- Claim C5. For every path, password and native outcome, `openDocument` fails as
follows. An empty (or null) path: handle 0 and `IllegalArgumentException`. A non-empty
path on which the native open fails with error code `err`: handle 0 and the message
"PDFium error code: " followed by `err` in decimal, with `PasswordRequiredException`
when `err` is the engine's password error and the password is null or empty, with
`InvalidPasswordException` when `err` is the password error and the password is
non-empty, and with `DocumentOpenException` when `err` is any other code. -/
theorem openDocument_failure_classes (K : Consts) (p : Process) (jPath jPassword : Option String)
    (native : LoadOutcome) (allocOk : Bool) :
    ((jPath = none ∨ jPath = some "") →
      (nativeOpenDocument K p jPath jPassword native allocOk).handle = 0 ∧
      (nativeOpenDocument K p jPath jPassword native allocOk).thrown
        = some ⟨.IllegalArgumentException, "File path cannot be empty"⟩) ∧
    (∀ path err, jPath = some path → path ≠ "" → native = .failed err →
      (nativeOpenDocument K p jPath jPassword native allocOk).handle = 0 ∧
      (err = K.FPDF_ERR_PASSWORD → (jPassword = none ∨ jPassword = some "") →
        (nativeOpenDocument K p jPath jPassword native allocOk).thrown
          = some ⟨.PasswordRequiredException, "PDFium error code: " ++ toString err⟩) ∧
      (err = K.FPDF_ERR_PASSWORD → ∀ password, jPassword = some password → password ≠ "" →
        (nativeOpenDocument K p jPath jPassword native allocOk).thrown
          = some ⟨.InvalidPasswordException, "PDFium error code: " ++ toString err⟩) ∧
      (err ≠ K.FPDF_ERR_PASSWORD →
        (nativeOpenDocument K p jPath jPassword native allocOk).thrown
          = some ⟨.DocumentOpenException, "PDFium error code: " ++ toString err⟩)) := by
  refine ⟨?_, ?_⟩
  · intro h
    have : jstringToStdString jPath = "" := by
      rcases h with rfl | rfl <;> rfl
    simp [nativeOpenDocument, this]
  · intro path err hp hne hn
    subst hp hn
    have hpath : jstringToStdString (some path) = path := rfl
    refine ⟨?_, ?_, ?_, ?_⟩
    · unfold nativeOpenDocument
      simp only [hpath, if_neg hne]
      split <;> [split; skip] <;> rfl
    · intro he hpw
      have : passwordString jPassword = "" := by
        rcases hpw with rfl | rfl <;> rfl
      simp [nativeOpenDocument, hpath, hne, he, this]
    · intro he password hpw hnonempty
      subst hpw
      have : passwordString (some password) ≠ "" := hnonempty
      simp [nativeOpenDocument, hpath, hne, he, this]
    · intro he
      simp [nativeOpenDocument, hpath, hne, he]

/-- Claim C5, witness: a protected file opened with no password, the engine reporting
its password error, code 4. -/
theorem openDocument_failure_classes_witness :
    (some "locked.pdf" : Option String) = some "locked.pdf" ∧ "locked.pdf" ≠ "" ∧
    (4 : Nat) = headerConsts.FPDF_ERR_PASSWORD ∧
    (nativeOpenDocument headerConsts Process.start (some "locked.pdf") none (.failed 4)
      true).handle = 0 ∧
    (nativeOpenDocument headerConsts Process.start (some "locked.pdf") none (.failed 4)
      true).thrown = some ⟨.PasswordRequiredException, "PDFium error code: " ++ toString 4⟩ ∧
    "PDFium error code: " ++ toString 4 = "PDFium error code: 4" :=
  ⟨rfl, by decide, rfl,
    ((openDocument_failure_classes headerConsts Process.start (some "locked.pdf") none
      (.failed 4) true).2 "locked.pdf" 4 rfl (by decide) rfl).1,
    ((openDocument_failure_classes headerConsts Process.start (some "locked.pdf") none
      (.failed 4) true).2 "locked.pdf" 4 rfl (by decide) rfl).2.1 rfl (Or.inl rfl),
    by decide⟩

/-! ## `nativeGetLinksForPage` -/

/-- One iteration of the loop appends the record of the annotation, if it has one. -/
theorem linksLoopBody_eq (K : Consts) (acc : List PdfLink) (annot : Option AnnotAnswer) :
    linksLoopBody K acc annot = acc ++ (linkOfAnnot K annot).toList := by
  unfold linksLoopBody linkOfAnnot
  cases annot with
  | none => simp
  | some a =>
    by_cases hs : a.subtype ≠ K.FPDF_ANNOT_LINK
    · simp [hs]
    · cases hr : a.rect <;> simp [hs, hr]

/-- The loop appends the records of the annotations, in order. -/
theorem linksLoop_eq (K : Consts) (annots : List (Option AnnotAnswer)) : ∀ acc,
    annots.foldl (linksLoopBody K) acc = acc ++ annots.filterMap (linkOfAnnot K) := by
  induction annots with
  | nil => intro acc; simp
  | cons a t ih =>
    intro acc
    rw [List.foldl_cons, ih, linksLoopBody_eq, List.append_assoc]
    congr 1
    cases h : linkOfAnnot K a <;> simp [List.filterMap_cons, h]

/-- On a valid handle and a page that loads, the links returned are the records of the
annotations, in order. -/
theorem getLinks_loaded (K : Consts) (heap : List (Nat × DocumentWrapper)) (handle : Nat)
    (pageIndex : Int) (annots : List (Option AnnotAnswer)) (w : DocumentWrapper) (d : Nat)
    (hhandle : handle ≠ 0) (hlive : heap.lookup handle = some w) (hopen : w.document = some d) :
    nativeGetLinksForPage K heap handle pageIndex (some annots)
      = some (.links (annots.filterMap (linkOfAnnot K))) := by
  unfold nativeGetLinksForPage
  simp only [if_neg hhandle, hlive, hopen, linksLoop_eq, List.nil_append]

/-- The links of `pageMixed`, evaluated: three records for six annotation slots, in
annotation order. -/
theorem getLinks_mixed_eval :
    nativeGetLinksForPage headerConsts heapOneDocument 1 0 (some pageMixed)
      = some (.links linksOfPageMixed) := by
  decide

/-- The promotion round trip leaves every bit pattern but a signalling NaN as it is. -/
theorem floatViaDouble_eq_self (bits : Nat) (h : isSignallingNaN bits = false) :
    floatViaDouble bits = bits := by
  simp [floatViaDouble, h]

/-- A rectangle none of whose coordinates is a signalling NaN reaches the `RectF` bit
for bit. -/
theorem newRectF_eq_self (rect : FS_RECTF) (h : hasSignallingNaN rect = false) :
    newRectF rect = rect := by
  simp only [hasSignallingNaN, Bool.or_eq_false_iff] at h
  obtain ⟨⟨⟨h1, h2⟩, h3⟩, h4⟩ := h
  cases rect
  simp only [newRectF, FS_RECTF.mk.injEq]
  exact ⟨floatViaDouble_eq_self _ h1, floatViaDouble_eq_self _ h2,
    floatViaDouble_eq_self _ h3, floatViaDouble_eq_self _ h4⟩

/-- The records pair off, in order, with the link annotations whose rectangle is readable,
each record carrying the rectangle of its annotation as `NewObject` receives it. -/
theorem linkOfAnnot_pairs (K : Consts) (annots : List (Option AnnotAnswer)) :
    List.Forall₂
      (fun (a : AnnotAnswer) (l : PdfLink) =>
        ∃ r, a.rect = some r ∧ l.rect = newRectF r ∧ (hasSignallingNaN r = false → l.rect = r))
      ((annots.filterMap id).filter (isReadableLink K))
      (annots.filterMap (linkOfAnnot K)) := by
  induction annots with
  | nil => simp
  | cons a t ih =>
    cases a with
    | none => simpa [List.filterMap_cons, linkOfAnnot] using ih
    | some a =>
      by_cases hs : a.subtype = K.FPDF_ANNOT_LINK
      · cases hr : a.rect with
        | none =>
          simpa [List.filterMap_cons, linkOfAnnot, isReadableLink, isLinkAnnot, hs, hr,
            List.filter_cons] using ih
        | some r =>
          simp only [List.filterMap_cons, linkOfAnnot, isReadableLink, isLinkAnnot, hs, hr,
            List.filter_cons, id, ne_eq, not_true_eq_false, if_false, decide_True,
            Option.isSome_some, Bool.and_self, if_true]
          exact List.Forall₂.cons
            ⟨r, hr, rfl, fun hn => newRectF_eq_self r hn⟩ ih
      · simpa [List.filterMap_cons, linkOfAnnot, isReadableLink, isLinkAnnot, hs,
          List.filter_cons] using ih

/-- Claim C7, counterexample. A page that loads with N = 2 link annotations and M = 0
others, the first with an unreadable rectangle, the second with the rectangle
`(0x7F800001, 0, 0, 0)` whose left coordinate is a signalling NaN: `getLinksForPage`
returns one record, not two, and the rectangle of that record, `(0x7FC00001, 0, 0, 0)`,
is not the rectangle of the annotation. -/
theorem getLinks_unreadable_rectangle_and_signalling_nan :
    nativeGetLinksForPage headerConsts heapOneDocument 1 0 (some pageUnreadableAndNaN)
        = some (.links [⟨⟨2143289345, 0, 0, 0⟩, none, none⟩]) ∧
      (pageUnreadableAndNaN.filterMap id).countP (isLinkAnnot headerConsts) = 2 ∧
      (pageUnreadableAndNaN.filterMap id).countP (fun a => !isLinkAnnot headerConsts a) = 0 ∧
      (pageUnreadableAndNaN.filterMap id).filterMap (fun a => a.rect)
        = [⟨2139095041, 0, 0, 0⟩] ∧
      (⟨2143289345, 0, 0, 0⟩ : FS_RECTF) ≠ ⟨2139095041, 0, 0, 0⟩ := by
  decide

/-- Claim C7, as amended. For every valid handle and every page that loads,
`getLinksForPage` returns one record per link annotation whose bounding rectangle is
readable and none for any other annotation, in native annotation index order, without
deduplicating or sorting: the records pair off, in order, with the annotations the
engine hands out whose subtype is link and whose rectangle is readable, each record
carrying that annotation's rectangle as it arrives through the `float` to `double`
promotion of the variadic `NewObject` call, that is, bit for bit unless a coordinate is
a signalling NaN, which arrives as the quiet NaN with the same sign and payload; so a
page with N such annotations yields exactly N records, whatever its other annotations. -/
theorem getLinks_one_record_per_readable_link (K : Consts) (heap : List (Nat × DocumentWrapper))
    (handle : Nat) (pageIndex : Int) (annots : List (Option AnnotAnswer))
    (w : DocumentWrapper) (d : Nat)
    (hhandle : handle ≠ 0) (hlive : heap.lookup handle = some w) (hopen : w.document = some d) :
    ∃ ls, nativeGetLinksForPage K heap handle pageIndex (some annots) = some (.links ls) ∧
      List.Forall₂
        (fun (a : AnnotAnswer) (l : PdfLink) =>
          ∃ r, a.rect = some r ∧ l.rect = newRectF r ∧
            (hasSignallingNaN r = false → l.rect = r))
        ((annots.filterMap id).filter (isReadableLink K)) ls ∧
      ls.length = (annots.filterMap id).countP (isReadableLink K) := by
  refine ⟨_, getLinks_loaded K heap handle pageIndex annots w d hhandle hlive hopen,
    linkOfAnnot_pairs K annots, ?_⟩
  rw [← (linkOfAnnot_pairs K annots).length_eq, List.countP_eq_length_filter]

/-- Claim C7, witness: `pageMixed` has three link annotations with a readable rectangle
among its six annotation slots, and three records are returned. -/
theorem getLinks_one_record_per_readable_link_witness :
    (1 : Nat) ≠ 0 ∧ heapOneDocument.lookup 1 = some ⟨some 5⟩ ∧
    (pageMixed.filterMap id).countP (isReadableLink headerConsts) = 3 ∧
    ∃ ls, nativeGetLinksForPage headerConsts heapOneDocument 1 0 (some pageMixed)
        = some (.links ls) ∧
      List.Forall₂
        (fun (a : AnnotAnswer) (l : PdfLink) =>
          ∃ r, a.rect = some r ∧ l.rect = newRectF r ∧
            (hasSignallingNaN r = false → l.rect = r))
        ((pageMixed.filterMap id).filter (isReadableLink headerConsts)) ls ∧
      ls.length = (pageMixed.filterMap id).countP (isReadableLink headerConsts) :=
  ⟨by decide, by decide, by decide,
    getLinks_one_record_per_readable_link headerConsts heapOneDocument 1 0 pageMixed
      ⟨some 5⟩ 5 (by decide) (by decide) rfl⟩

/-- Claim C8, the failing input evaluated. A link annotation with a readable rectangle
whose link has a non-URI action (the URI length query answers 0) and a destination that
`FPDFLink_GetDest` resolves to page 3: the record returned has neither `uri` nor
`destinationPage`; the destination is never asked for, because the source looks for a
destination only when the link has no action at all. -/
theorem getLinks_non_uri_action_drops_destination :
    nativeGetLinksForPage headerConsts heapOneDocument 1 0 (some pageGoToAction)
      = some (.links [⟨⟨10, 20, 30, 40⟩, none, none⟩]) := by
  decide

/-- The two optional fields of the record built for a link, case by case: a link with
an action gets the URI the engine wrote, when the length query is positive and the
string is not empty, and never a destination; a link with no action gets the page index
of its destination, when it has one that is not negative, and never a URI. -/
theorem makeLink_resolveLink_cases (rect : FS_RECTF) (l : LinkAnswer) :
    (∀ a, l.action = some a → 0 < a.uriLength →
      (makeLink rect (resolveLink (some l))).uri
          = (if assignCString (uriBuffer a) = [] then none
             else some (assignCString (uriBuffer a))) ∧
        (makeLink rect (resolveLink (some l))).destinationPage = none) ∧
    (∀ a, l.action = some a → a.uriLength = 0 →
      (makeLink rect (resolveLink (some l))).uri = none ∧
        (makeLink rect (resolveLink (some l))).destinationPage = none) ∧
    (∀ i, l.action = none → l.dest = some i →
      (makeLink rect (resolveLink (some l))).uri = none ∧
        (makeLink rect (resolveLink (some l))).destinationPage
          = (if i ≥ 0 then some i else none)) ∧
    (l.action = none → l.dest = none →
      (makeLink rect (resolveLink (some l))).uri = none ∧
        (makeLink rect (resolveLink (some l))).destinationPage = none) := by
  refine ⟨?_, ?_, ?_, ?_⟩
  · intro a ha hlen
    simp [makeLink, resolveLink, ha, hlen]
  · intro a ha hlen
    simp [makeLink, resolveLink, ha, hlen]
  · intro i ha hd
    simp [makeLink, resolveLink, ha, hd]
  · intro ha hd
    simp [makeLink, resolveLink, ha, hd]

/-- After the link has been looked at, `uri` is empty or `destPage` is -1. -/
theorem resolveLink_exclusive (link : Option LinkAnswer) :
    (resolveLink link).1 = [] ∨ (resolveLink link).2 = -1 := by
  unfold resolveLink
  cases link with
  | none => simp
  | some l =>
    cases ha : l.action with
    | some a => by_cases h : a.uriLength > 0 <;> simp [ha, h]
    | none => cases hd : l.dest <;> simp [ha, hd]

/-- The fields of the `PdfLink` built from locals of which `uri` is empty or `destPage` is
-1. -/
theorem makeLink_fields (rect : FS_RECTF) (r : List Nat × Int) (h : r.1 = [] ∨ r.2 = -1) :
    ¬ ((makeLink rect r).uri ≠ none ∧ (makeLink rect r).destinationPage ≠ none) ∧
      (∀ dest, (makeLink rect r).destinationPage = some dest → 0 ≤ dest) ∧
      (∀ u, (makeLink rect r).uri = some u → u ≠ []) := by
  unfold makeLink
  refine ⟨?_, ?_, ?_⟩
  · rcases h with h | h
    · simp [h]
    · simp [h]
  · intro dest hd
    by_cases h2 : r.2 ≥ 0
    · simp only [if_pos h2, Option.some.injEq] at hd
      omega
    · simp [h2] at hd
  · intro u hu
    by_cases h1 : r.1 = []
    · simp [h1] at hu
    · simp only [if_neg h1, Option.some.injEq] at hu
      rw [← hu]; exact h1

/-- Claim C9. Every link record returned by `getLinksForPage`, for every page and every
outcome of the engine's link, action, URI and destination queries, has at most one of
`uri` and `destinationPage` populated; a populated `destinationPage` is non-negative and
a populated `uri` is non-empty. -/
theorem getLinks_record_fields (K : Consts) (heap : List (Nat × DocumentWrapper))
    (handle : Nat) (pageIndex : Int) (page : Option (List (Option AnnotAnswer)))
    (ls : List PdfLink)
    (h : nativeGetLinksForPage K heap handle pageIndex page = some (.links ls))
    (l : PdfLink) (hl : l ∈ ls) :
    ¬ (l.uri ≠ none ∧ l.destinationPage ≠ none) ∧
      (∀ dest, l.destinationPage = some dest → 0 ≤ dest) ∧
      (∀ u, l.uri = some u → u ≠ []) := by
  unfold nativeGetLinksForPage at h
  split at h
  · cases h
  · split at h
    · cases h
    · split at h
      · cases h
      · split at h
        · cases h
        · simp only [Option.some.injEq, LinksResult.links.injEq] at h
          rw [linksLoop_eq, List.nil_append] at h
          subst h
          obtain ⟨a, _, ha⟩ := List.mem_filterMap.mp hl
          unfold linkOfAnnot at ha
          cases a with
          | none => simp at ha
          | some a =>
            simp only at ha
            split at ha
            · cases ha
            · split at ha
              · cases ha
              · cases ha
                exact makeLink_fields _ _ (resolveLink_exclusive _)

/-- Claim C9, witness: the first record returned for `pageMixed`, which carries the URI
"hi" and no destination. -/
theorem getLinks_record_fields_witness :
    nativeGetLinksForPage headerConsts heapOneDocument 1 0 (some pageMixed)
        = some (.links linksOfPageMixed) ∧
      (⟨⟨1, 2, 3, 4⟩, some [104, 105], none⟩ : PdfLink) ∈ linksOfPageMixed ∧
      (¬ ((⟨⟨1, 2, 3, 4⟩, some [104, 105], none⟩ : PdfLink).uri ≠ none ∧
          (⟨⟨1, 2, 3, 4⟩, some [104, 105], none⟩ : PdfLink).destinationPage ≠ none) ∧
        (∀ dest, (⟨⟨1, 2, 3, 4⟩, some [104, 105], none⟩ : PdfLink).destinationPage = some dest →
          0 ≤ dest) ∧
        (∀ u, (⟨⟨1, 2, 3, 4⟩, some [104, 105], none⟩ : PdfLink).uri = some u → u ≠ [])) :=
  ⟨by decide, by decide,
    getLinks_record_fields headerConsts heapOneDocument 1 0 (some pageMixed) linksOfPageMixed
      (by decide) ⟨⟨1, 2, 3, 4⟩, some [104, 105], none⟩ (by decide)⟩

end PdfBridge
